import Mathlib

/-!
Shallow embedding of the object model and dispatch engine of the
`rust-ez-dbus` repository (`src/interface.rs`, `src/arguments.rs`,
`src/message.rs`, `src/error.rs`), together with theorems checking the
natural-language specification against it.

Rust `BTreeMap<String, T>` is embedded as a strictly-sorted association
list; `Rc<RefCell<...>>` shared registries are embedded by passing the
registry map explicitly to the standard-interface handler bodies at call
time (which is what dereferencing the shared pointer does in the source),
together with an explicit borrow state for the registry cell: the
dispatcher holds the cell's mutable borrow across the handler call
(`self.map.borrow_mut()` in `Interfaces::handle`), so a handler that
re-borrows the same cell panics, and that panic is a visible outcome of
the embedded dispatch (`PanicOr`). Closures (`FnMut` trait objects)
become Lean functions; fallible Rust calls returning `Result` become
`Except`.
-/

namespace EzDbus

/-- `BasicValue` of the external value codec. Modelled from the spec:
`src/value.rs` is not in the source tree; the spec requires at least a
string scalar, and a second scalar so that type mismatch is expressible. -/
inductive BasicValue where
  | string (s : String)
  | byte (b : Nat)
deriving DecidableEq, Repr

/-- `Value` of the external value codec. Modelled from the spec: a tagged
union with at minimum a string scalar, a variant wrapper, and a dictionary
keyed by a basic scalar. -/
inductive Value where
  | basicValue (b : BasicValue)
  | variant (v : Value)
  | dictionary (d : List (BasicValue × Value))

/-- `Dictionary` of the external value codec, modelled from the spec as the
list of its key/value pairs (the source collects into a `HashMap`). -/
abbrev Dictionary : Type := List (BasicValue × Value)

/-- `Signature` of the external value codec: a newtype over a string
(the source pattern-matches `Signature(ref s)`). -/
abbrev Signature : Type := String

/-- Embedding of `BTreeMap<String, T>` (`type Map<T> = BTreeMap<String, T>`
in `interface.rs`): an association list kept sorted by key. -/
abbrev Map (α : Type) : Type := List (String × α)

/-- The `BTreeMap` key invariant: keys strictly increasing (hence unique). -/
def Map.Sorted {α : Type} (m : Map α) : Prop :=
  List.Pairwise (fun a b => a.1 < b.1) m

instance {α : Type} (m : Map α) : Decidable (Map.Sorted m) := by
  unfold Map.Sorted; infer_instance

/-- `BTreeMap::new`. -/
def Map.empty {α : Type} : Map α := []

/-- `BTreeMap::get` / `BTreeMap::get_mut` on a sorted association list. -/
def Map.find? {α : Type} : Map α → String → Option α
  | [], _ => none
  | (k', v') :: rest, k => if k = k' then some v' else Map.find? rest k

/-- `BTreeMap::insert`: ordered insertion, replacing an existing binding. -/
def Map.insert {α : Type} : Map α → String → α → Map α
  | [], k, v => [(k, v)]
  | (k', v') :: rest, k, v =>
    if k < k' then (k, v) :: (k', v') :: rest
    else if k = k' then (k, v) :: rest
    else (k', v') :: Map.insert rest k v

/-- Iteration order of `BTreeMap::iter`: the stored (sorted) list itself. -/
def Map.toList {α : Type} (m : Map α) : List (String × α) := m

/-- `Argument` (interface.rs): a name and a type signature. -/
structure Argument where
  name : String
  signature : String

/-- `Annotation` (interface.rs): a name/value pair. -/
structure Annotation where
  name : String
  value : String

/-- `ErrorMessage` (interface.rs): symbolic error name plus human text. -/
structure ErrorMessage where
  name : String
  message : String
deriving DecidableEq, Repr

/-- `MethodResult` (interface.rs): `Result<Vec<Value>, ErrorMessage>`. -/
abbrev MethodResult : Type := Except ErrorMessage (List Value)

/-- `PropertyGetResult` (interface.rs): `Result<Value, ErrorMessage>`. -/
abbrev PropertyGetResult : Type := Except ErrorMessage Value

/-- `PropertySetResult` (interface.rs): `Result<(), ErrorMessage>`. -/
abbrev PropertySetResult : Type := Except ErrorMessage Unit

/-- `PropertyAccess` (interface.rs): the three access shapes, each carrying
its capability. A read capability (`PropertyReadHandler::get(&self)`,
nullary and side-effect free in this single-threaded core) is embedded as
its result; a write capability as a function of the written value. -/
inductive PropertyAccess where
  | ro (get : PropertyGetResult)
  | rw (get : PropertyGetResult) (set : Value → PropertySetResult)
  | wo (set : Value → PropertySetResult)

/-- `Property` (interface.rs). -/
structure Property where
  signature : Signature
  access : PropertyAccess
  anns : List Annotation

/-- `Property::new_ro`. -/
def Property.new_ro (sig : Signature) (get : PropertyGetResult) : Property :=
  ⟨sig, PropertyAccess.ro get, []⟩

/-- `Property::new_rw`. -/
def Property.new_rw (sig : Signature) (get : PropertyGetResult)
    (set : Value → PropertySetResult) : Property :=
  ⟨sig, PropertyAccess.rw get set, []⟩

/-- `Property::new_wo`. -/
def Property.new_wo (sig : Signature) (set : Value → PropertySetResult) : Property :=
  ⟨sig, PropertyAccess.wo set, []⟩

/-- `Signal` (interface.rs). -/
structure Signal where
  args : List Argument
  anns : List Annotation

/-- `Signal::new`. -/
def Signal.new : Signal := ⟨[], []⟩

/-- `Signal::add_argument`. -/
def Signal.add_argument (s : Signal) (arg : Argument) : Signal :=
  { s with args := s.args ++ [arg] }

/-- `Signal.annotate`. -/
def Signal.annotate (s : Signal) (ann : Annotation) : Signal :=
  { s with anns := s.anns ++ [ann] }

/-- Call-target headers of an inbound call message. Modelled from the spec:
read access to the call target headers `(interface, path, method)`
(`Message::call_headers` lives in the out-of-tree connection layer). -/
structure CallHeaders where
  interface : String
  path : String
  method : String

/-- The kind of a message, as far as the dispatch core observes it:
a method call carrying target headers, a method return or error reply
addressed to a serial, or anything else. Modelled from the spec (the
concrete wire message type lives in the external `dbus_bytestream`
collaborator; `src/message.rs` only wraps it). -/
inductive MessageKind where
  | methodCall (headers : CallHeaders)
  | methodReturn (replySerial : Nat)
  | error (name : String) (replySerial : Nat)
  | other

/-- Embedding of `Message` (message.rs): its kind, its serial, and its body
values; `body = none` embeds a body whose decode fails or is absent
(`Message::values()` yielding `Err` or `Ok(None)`). -/
structure Message where
  kind : MessageKind
  serial : Nat
  body : Option (List Value)

/-- `Message::call_headers`. Modelled from the spec: yields the call target
for a method call and `None` for any other message. -/
def Message.call_headers (m : Message) : Option CallHeaders :=
  match m.kind with
  | MessageKind.methodCall headers => some headers
  | _ => none

/-- `Message::return_message` (message.rs): a method-return reply addressed
to this message's serial, with an empty body. -/
def Message.return_message (m : Message) : Message :=
  ⟨MessageKind.methodReturn m.serial, 0, some []⟩

/-- `Message::error_message` (message.rs): an error reply carrying the given
error name, addressed to this message's serial, with an empty body. -/
def Message.error_message (m : Message) (name : String) : Message :=
  ⟨MessageKind.error name m.serial, 0, some []⟩

/-- `Message::add_argument` (message.rs): appends one value to the body. -/
def Message.add_argument (m : Message) (v : Value) : Message :=
  { m with body := some ((m.body.getD []) ++ [v]) }

/-- `Arguments` (arguments.rs): the positional argument list of a call. -/
structure Arguments where
  values : List Value

/-- `Arguments::invalid_arguments` (arguments.rs). -/
def Arguments.invalid_arguments : ErrorMessage :=
  ⟨"org.freedesktop.DBus.Error.InvalidArgs", "invalid arguments"⟩

/-- `Arguments::invalid_argument` (arguments.rs). -/
def Arguments.invalid_argument (index : Nat) : ErrorMessage :=
  ⟨"org.freedesktop.DBus.Error.InvalidArgs",
   "invalid argument at " ++ toString index⟩

/-- `Arguments::new` (arguments.rs): fails with `invalid_arguments` when the
message body is absent or fails to decode. -/
def Arguments.new (msg : Message) : Except ErrorMessage Arguments :=
  match msg.body with
  | some vs => Except.ok ⟨vs⟩
  | none => Except.error Arguments.invalid_arguments

/-- `Arguments::extract` (arguments.rs). -/
def Arguments.extract (args : Arguments) (index : Nat) : Except ErrorMessage Value :=
  match args.values.get? index with
  | some v => Except.ok v
  | none => Except.error (Arguments.invalid_argument index)

/-- `Arguments::extract_string` (arguments.rs). -/
def Arguments.extract_string (args : Arguments) (index : Nat) :
    Except ErrorMessage String :=
  (args.extract index).bind fun value =>
    match value with
    | Value.basicValue (BasicValue.string s) => Except.ok s
    | _ => Except.error (Arguments.invalid_argument index)

/-- The body a method handler runs (`cb` field of `Method`). A user-supplied
`FnMut` closure is an arbitrary function of the message; the closures built
by the standard interfaces at finalization capture the shared registry map
(`Rc<RefCell<Map<Interface>>>`), so they are embedded as codes interpreted
against the live registry map at call time (`runHandler` below). -/
inductive HandlerCode where
  | user (f : Message → MethodResult)
  | peerPing
  | peerGetMachineId
  | propsGet
  | propsSet
  | propsGetAll
  | introspect (children : List String)

/-- `Method` (interface.rs). -/
structure Method where
  in_args : List Argument
  out_args : List Argument
  cb : HandlerCode
  anns : List Annotation

/-- `Method::new`. -/
def Method.new (cb : HandlerCode) : Method := ⟨[], [], cb, []⟩

/-- `Method::add_argument`. -/
def Method.add_argument (m : Method) (arg : Argument) : Method :=
  { m with in_args := m.in_args ++ [arg] }

/-- `Method::add_result`. -/
def Method.add_result (m : Method) (arg : Argument) : Method :=
  { m with out_args := m.out_args ++ [arg] }

/-- `Method.annotate`. -/
def Method.annotate (m : Method) (ann : Annotation) : Method :=
  { m with anns := m.anns ++ [ann] }

/-- `Interface` (interface.rs). -/
structure Interface where
  methods : Map Method
  properties : Map Property
  signals : Map Signal

/-- `Interface::new`. -/
def Interface.new : Interface := ⟨Map.empty, Map.empty, Map.empty⟩

/-- `Interface::add_method`. -/
def Interface.add_method (i : Interface) (name : String) (method : Method) :
    Interface :=
  { i with methods := i.methods.insert name method }

/-- `Interface::add_property`. -/
def Interface.add_property (i : Interface) (name : String) (property : Property) :
    Interface :=
  { i with properties := i.properties.insert name property }

/-- `Interface::get_property`. -/
def Interface.get_property (i : Interface) (name : String) : Option Property :=
  i.properties.find? name

/-- `Interface::add_signal`. -/
def Interface.add_signal (i : Interface) (name : String) (signal : Signal) :
    Interface :=
  { i with signals := i.signals.insert name signal }

/-- `Interface::_require_property`. -/
def Interface._require_property (i : Interface) (name : String) :
    Except ErrorMessage Property :=
  match i.properties.find? name with
  | some prop => Except.ok prop
  | none => Except.error
      ⟨"org.freedesktop.DBus.Error.UnknownProperty",
       "unknown property: " ++ name⟩

/-- `Interface::get_property_value`. -/
def Interface.get_property_value (i : Interface) (name : String) : MethodResult :=
  (i._require_property name).bind fun prop =>
    match prop.access with
    | PropertyAccess.ro ro => ro.map fun v => [v]
    | PropertyAccess.rw rw _ => rw.map fun v => [v]
    | PropertyAccess.wo _ =>
      Except.error
        ⟨"org.freedesktop.DBus.Error.Failed",
         "property is write-only: " ++ name⟩

/-- `Interface::set_property_value`. -/
def Interface.set_property_value (i : Interface) (name : String) (value : Value) :
    MethodResult :=
  (i._require_property name).bind fun prop =>
    match prop.access with
    | PropertyAccess.wo wo => (wo value).map fun _ => []
    | PropertyAccess.rw _ rw => (rw value).map fun _ => []
    | PropertyAccess.ro _ =>
      Except.error
        ⟨"org.freedesktop.DBus.Error.Failed",
         "property is read-only: " ++ name⟩

/-- `Interface::get_property_map`: read every readable property in name
order, keep the successes. (The source collects the pairs into a `HashMap`
wrapped as `Dictionary`; the embedding keeps the pairs as produced.) -/
def Interface.get_property_map (i : Interface) : Dictionary :=
  (i.properties.toList.map fun kv =>
    (match kv.2.access with
     | PropertyAccess.ro ro => ro.toOption
     | PropertyAccess.rw rw _ => rw.toOption
     | PropertyAccess.wo _ => none).map fun v =>
      (BasicValue.string kv.1, v)).filterMap id

/-- `Error` (error.rs), plus the `InterfacesFinalized` variant referenced by
`Interfaces::add_interface` in interface.rs (the spec's "registry finalized"
error). External payloads (`connection::Error`, `DemarshalError`) are opaque
to this core and elided. -/
inductive Error where
  | invalidReply (desc : String)
  | dbusMessage
  | noServerName
  | serverAlreadyRegistered (name : String)
  | noSuchServer (name : String)
  | pathAlreadyRegistered (name : String)
  | noSuchPath (name : String)
  | extractArguments
  | interfaceAlreadyRegistered (name : String)
  | interfacesFinalized (name : String)
deriving DecidableEq, Repr

/-- `Interfaces` (interface.rs): the registry. The `Rc<RefCell<..>>`-shared
interface map is embedded as the map itself; sharing with the standard
interface closures is recovered by interpreting their handler codes against
this map at call time. -/
structure Interfaces where
  map : Map Interface
  finalized : Bool

/-- `require_interface` (interface.rs). -/
def require_interface (map : Map Interface) (name : String) :
    Except ErrorMessage Interface :=
  match map.find? name with
  | some iface => Except.ok iface
  | none => Except.error
      ⟨"org.freedesktop.DBus.Error.UnknownInterface",
       "unknown interface: " ++ name⟩

/-- The host machine identifier. Modelled from the spec: the external
identity provider `MachineId::get()` is assumed always available; its value
is irrelevant to the core, so it is a fixed string here. -/
def machineIdString : String := "00000000000000000000000000000000"

/-- The crate version spliced into the introspection header by
`env!("CARGO_PKG_VERSION")`. Modelled from the spec: the manifest is not
part of the dispatch core; any fixed string preserves the document shape. -/
def cargoPkgVersion : String := "0.1.0"

/-- `PeerInterface::ping`. -/
def PeerInterface.ping : MethodResult := Except.ok []

/-- `PeerInterface::get_machine_id`. -/
def PeerInterface.get_machine_id : MethodResult :=
  Except.ok [Value.basicValue (BasicValue.string machineIdString)]

/-- `PeerInterface::new`. -/
def PeerInterface.new : Interface :=
  (Interface.new.add_method "Ping" (Method.new HandlerCode.peerPing)).add_method
    "GetMachineId"
    ((Method.new HandlerCode.peerGetMachineId).add_result
      (Argument.mk "machine_uuid" "s"))

/-- `PropertyInterface::get_property` (interface.rs): the body of the
`Properties.Get` handler, applied to the live registry map. -/
def PropertyInterface.get_property (map : Map Interface) (m : Message) :
    MethodResult :=
  (Arguments.new m).bind fun values =>
  (values.extract_string 0).bind fun iface =>
  (values.extract_string 1).bind fun property =>
  (require_interface map iface).bind fun iface =>
    iface.get_property_value property

/-- `PropertyInterface::set_property` (interface.rs). -/
def PropertyInterface.set_property (map : Map Interface) (m : Message) :
    MethodResult :=
  (Arguments.new m).bind fun values =>
  (values.extract_string 0).bind fun iface =>
  (values.extract_string 1).bind fun property =>
  (values.extract 2).bind fun value =>
  (require_interface map iface).bind fun iface =>
    iface.set_property_value property value

/-- `PropertyInterface::get_all_properties` (interface.rs). -/
def PropertyInterface.get_all_properties (map : Map Interface) (m : Message) :
    MethodResult :=
  (Arguments.new m).bind fun values =>
  (values.extract_string 0).bind fun iface =>
  (require_interface map iface).map fun iface =>
    [Value.dictionary iface.get_property_map]

/-- `PropertyInterface::new` (interface.rs): the three `Properties` methods;
each closure captures a clone of the shared registry map, embedded as a
handler code interpreted against that map at call time. -/
def PropertyInterface.new : Interface :=
  ((Interface.new.add_method "Get"
      (((Method.new HandlerCode.propsGet).add_argument
          (Argument.mk "interface_name" "s")).add_argument
          (Argument.mk "property_name" "s") |>.add_result
          (Argument.mk "value" "v"))).add_method "Set"
      ((((Method.new HandlerCode.propsSet).add_argument
          (Argument.mk "interface_name" "s")).add_argument
          (Argument.mk "property_name" "s")).add_result
          (Argument.mk "value" "v"))).add_method "GetAll"
      (((Method.new HandlerCode.propsGetAll).add_argument
          (Argument.mk "interface_name" "s")).add_result
          (Argument.mk "props" "\x7bsv\x7d"))

/-- `IntrospectableInterface::_to_string_map` (interface.rs): fold the map's
(name-ordered) entries into one string. -/
def IntrospectableInterface._to_string_map {α : Type} (m : Map α)
    (f : String → α → String) : String :=
  m.toList.foldl (fun p kv => p ++ f kv.1 kv.2) ""

/-- `IntrospectableInterface::_to_string_list` (interface.rs). -/
def IntrospectableInterface._to_string_list {α : Type} (l : List α)
    (f : α → String) : String :=
  l.foldl (fun p t => p ++ f t) ""

/-- `IntrospectableInterface::_introspect_annotation` (interface.rs). Raw
Rust strings render `\n` as the two literal characters backslash-`n`; the
embedding keeps them verbatim. -/
def IntrospectableInterface._introspect_annotation (indent : String)
    (ann : Annotation) : String :=
  indent ++ "<annotation name=\"" ++ ann.name ++ "\" value=\"" ++ ann.value
    ++ "\" />\\n"

/-- `IntrospectableInterface::_introspect_arg` (interface.rs). -/
def IntrospectableInterface._introspect_arg (indent direction : String)
    (arg : Argument) : String :=
  indent ++ "<arg name=\"" ++ arg.name ++ "\" type=\"" ++ arg.signature
    ++ "\" direction=\"" ++ direction ++ "\" />\\n"

/-- Access-mode rendering in `IntrospectableInterface::_introspect_property`
(the `let access = match ...` in interface.rs). -/
def IntrospectableInterface.accessString (access : PropertyAccess) : String :=
  match access with
  | PropertyAccess.ro _ => "read"
  | PropertyAccess.rw _ _ => "readwrite"
  | PropertyAccess.wo _ => "write"

/-- `IntrospectableInterface::_introspect_property` (interface.rs). The
source's format string has the documented templating defect: the property
name is substituted where the indent belongs and the `name` attribute is
left empty; the embedding reproduces it faithfully. -/
def IntrospectableInterface._introspect_property (indent name : String)
    (prop : Property) : String :=
  let new_indent := indent ++ " "
  name ++ "<property name=\"\" type=\"" ++ prop.signature ++ "\" access=\""
    ++ IntrospectableInterface.accessString prop.access ++ "\">\\n"
    ++ IntrospectableInterface._to_string_list prop.anns
        (IntrospectableInterface._introspect_annotation new_indent)
    ++ indent ++ "</property>\\n"

/-- `IntrospectableInterface::_introspect_method` (interface.rs); same
templating defect as `_introspect_property`. -/
def IntrospectableInterface._introspect_method (indent name : String)
    (method : Method) : String :=
  let new_indent := indent ++ " "
  name ++ "<method name=\"\">\\n"
    ++ IntrospectableInterface._to_string_list method.in_args
        (IntrospectableInterface._introspect_arg new_indent "in")
    ++ IntrospectableInterface._to_string_list method.out_args
        (IntrospectableInterface._introspect_arg new_indent "out")
    ++ IntrospectableInterface._to_string_list method.anns
        (IntrospectableInterface._introspect_annotation new_indent)
    ++ indent ++ "</method>\\n"

/-- `IntrospectableInterface::_introspect_signal` (interface.rs); same
templating defect as `_introspect_property`. -/
def IntrospectableInterface._introspect_signal (indent name : String)
    (signal : Signal) : String :=
  let new_indent := indent ++ " "
  name ++ "<signal name=\"\">\\n"
    ++ IntrospectableInterface._to_string_list signal.args
        (IntrospectableInterface._introspect_arg new_indent "out")
    ++ IntrospectableInterface._to_string_list signal.anns
        (IntrospectableInterface._introspect_annotation new_indent)
    ++ indent ++ "</signal>\\n"

/-- `IntrospectableInterface::_introspect_interface` (interface.rs). -/
def IntrospectableInterface._introspect_interface (indent name : String)
    (iface : Interface) : String :=
  let new_indent := indent ++ " "
  indent ++ "<interface name=\"" ++ name ++ "\">\\n"
    ++ IntrospectableInterface._to_string_map iface.properties
        (fun k v => IntrospectableInterface._introspect_property new_indent k v)
    ++ IntrospectableInterface._to_string_map iface.methods
        (fun k v => IntrospectableInterface._introspect_method new_indent k v)
    ++ IntrospectableInterface._to_string_map iface.signals
        (fun k v => IntrospectableInterface._introspect_signal new_indent k v)
    ++ indent ++ "</interface>\\n"

/-- The fixed document head of `IntrospectableInterface::introspect`. -/
def IntrospectableInterface.docHeader : String :=
  "<!DOCTYPE node PUBLIC \"-//freedesktop//DTD D-BUS Object Introspection 1.0//EN\"\\n"
    ++ " \"http://www.freedesktop.org/standards/dbus/1.0/introspect.dtd\">\\n"
    ++ "<!-- rust-bus " ++ cargoPkgVersion ++ " -->" ++ "<node>\\n"

/-- `IntrospectableInterface::introspect` (interface.rs): renders the
description document from the live registry map plus the child names,
recomputed on every call. -/
def IntrospectableInterface.introspect (map : Map Interface)
    (children : List String) (_ : Message) : MethodResult :=
  let xml := IntrospectableInterface.docHeader
    ++ IntrospectableInterface._to_string_map map
        (fun k v => IntrospectableInterface._introspect_interface " " k v)
    ++ children.foldl (fun p name => p ++ " <node name=\"" ++ name ++ "\" />") ""
    ++ "</node>\\n"
  Except.ok [Value.basicValue (BasicValue.string xml)]

/-- `IntrospectableInterface::new` (interface.rs). -/
def IntrospectableInterface.new (children : List String) : Interface :=
  Interface.new.add_method "Introspect"
    ((Method.new (HandlerCode.introspect children)).add_result
      (Argument.mk "xml_data" "s"))

/-- Denotational interpretation of handler codes against a successfully
borrowed registry map (the registry cell free at the `borrow()`): a user
closure runs on the message; the standard-interface closures dereference
their captured `Rc` clone of the registry map, which is this map. This is
what each handler body computes when its borrow succeeds; the
dispatch-time interpretation, under the mutable borrow that
`Interfaces::handle` holds across the call, is `runHandlerRt` below
(`runHandlerRt_free` relates the two). -/
def runHandler (cb : HandlerCode) (map : Map Interface) (msg : Message) :
    MethodResult :=
  match cb with
  | HandlerCode.user f => f msg
  | HandlerCode.peerPing => PeerInterface.ping
  | HandlerCode.peerGetMachineId => PeerInterface.get_machine_id
  | HandlerCode.propsGet => PropertyInterface.get_property map msg
  | HandlerCode.propsSet => PropertyInterface.set_property map msg
  | HandlerCode.propsGetAll => PropertyInterface.get_all_properties map msg
  | HandlerCode.introspect children =>
    IntrospectableInterface.introspect map children msg

/-- Outcome of running code that may hit an unrecoverable runtime abort:
either the Rust panic (with its message) or a value. -/
inductive PanicOr (α : Type) where
  | panic (msg : String)
  | value (v : α)
deriving DecidableEq, Repr

/-- Borrow state of the registry's shared `RefCell` as observed by a
handler: free, or mutably borrowed by the dispatcher whose
`map.borrow_mut()` guard is live across the handler call. -/
inductive RefState where
  | free
  | mutBorrowed
deriving DecidableEq, Repr

/-- The message of the `RefCell` re-entrant borrow panic. Modelled from the
collaborator runtime (`core::cell::RefCell::borrow`); only its occurrence,
not its exact text, matters to the embedding. -/
def borrowPanicMessage : String := "already mutably borrowed"

/-- `map.borrow()` on the shared registry cell: yields the map when the
cell is free, panics when the dispatcher's mutable borrow is live. -/
def borrowShared (st : RefState) (map : Map Interface) :
    PanicOr (Map Interface) :=
  match st with
  | RefState.free => PanicOr.value map
  | RefState.mutBorrowed => PanicOr.panic borrowPanicMessage

/-- `PropertyInterface::get_property` as executed with the registry cell's
borrow state explicit: the `try!` argument extractions happen first (and
return their error without touching the cell), then `map.borrow()` at
interface.rs:311, which panics if the cell is mutably borrowed. -/
def PropertyInterface.get_property_rt (st : RefState) (map : Map Interface)
    (m : Message) : PanicOr MethodResult :=
  match Arguments.new m with
  | Except.error e => PanicOr.value (Except.error e)
  | Except.ok values =>
    match values.extract_string 0 with
    | Except.error e => PanicOr.value (Except.error e)
    | Except.ok iface_name =>
      match values.extract_string 1 with
      | Except.error e => PanicOr.value (Except.error e)
      | Except.ok property =>
        match borrowShared st map with
        | PanicOr.panic s => PanicOr.panic s
        | PanicOr.value mp =>
          PanicOr.value ((require_interface mp iface_name).bind fun iface =>
            iface.get_property_value property)

/-- `PropertyInterface::set_property` with the borrow state explicit
(extractions of positions 0, 1 and 2 precede the `map.borrow()` at
interface.rs:322). -/
def PropertyInterface.set_property_rt (st : RefState) (map : Map Interface)
    (m : Message) : PanicOr MethodResult :=
  match Arguments.new m with
  | Except.error e => PanicOr.value (Except.error e)
  | Except.ok values =>
    match values.extract_string 0 with
    | Except.error e => PanicOr.value (Except.error e)
    | Except.ok iface_name =>
      match values.extract_string 1 with
      | Except.error e => PanicOr.value (Except.error e)
      | Except.ok property =>
        match values.extract 2 with
        | Except.error e => PanicOr.value (Except.error e)
        | Except.ok value =>
          match borrowShared st map with
          | PanicOr.panic s => PanicOr.panic s
          | PanicOr.value mp =>
            PanicOr.value ((require_interface mp iface_name).bind fun iface =>
              iface.set_property_value property value)

/-- `PropertyInterface::get_all_properties` with the borrow state explicit
(extraction of position 0 precedes the `map.borrow()` at interface.rs:331). -/
def PropertyInterface.get_all_properties_rt (st : RefState)
    (map : Map Interface) (m : Message) : PanicOr MethodResult :=
  match Arguments.new m with
  | Except.error e => PanicOr.value (Except.error e)
  | Except.ok values =>
    match values.extract_string 0 with
    | Except.error e => PanicOr.value (Except.error e)
    | Except.ok iface_name =>
      match borrowShared st map with
      | PanicOr.panic s => PanicOr.panic s
      | PanicOr.value mp =>
        PanicOr.value ((require_interface mp iface_name).map fun iface =>
          [Value.dictionary iface.get_property_map])

/-- `IntrospectableInterface::introspect` with the borrow state explicit:
it dereferences `map.borrow()` unconditionally (interface.rs:369) before
rendering anything. -/
def IntrospectableInterface.introspect_rt (st : RefState)
    (map : Map Interface) (children : List String) (m : Message) :
    PanicOr MethodResult :=
  match borrowShared st map with
  | PanicOr.panic s => PanicOr.panic s
  | PanicOr.value mp =>
    PanicOr.value (IntrospectableInterface.introspect mp children m)

/-- Interpreter of handler codes as executed by the dispatcher, with the
registry cell's borrow state explicit: user closures and the peer methods
never touch the cell; the finalize-injected Properties and Introspectable
handlers re-borrow it and panic when the dispatcher's mutable borrow is
live. -/
def runHandlerRt (cb : HandlerCode) (st : RefState) (map : Map Interface)
    (msg : Message) : PanicOr MethodResult :=
  match cb with
  | HandlerCode.user f => PanicOr.value (f msg)
  | HandlerCode.peerPing => PanicOr.value PeerInterface.ping
  | HandlerCode.peerGetMachineId => PanicOr.value PeerInterface.get_machine_id
  | HandlerCode.propsGet => PropertyInterface.get_property_rt st map msg
  | HandlerCode.propsSet => PropertyInterface.set_property_rt st map msg
  | HandlerCode.propsGetAll =>
    PropertyInterface.get_all_properties_rt st map msg
  | HandlerCode.introspect children =>
    IntrospectableInterface.introspect_rt st map children msg

/-- The transport error of `Connection::send`, opaque to this core.
Modelled from the spec (`send(message) -> Result<(), TransportError>`). -/
abbrev TransportError : Type := String

/-- The connection collaborator as consumed by `Interfaces::handle`: its
send primitive. Modelled from the spec. -/
structure Connection where
  send : Message → Except TransportError Unit

/-- `Interfaces::new` (interface.rs). -/
def Interfaces.new : Interfaces := ⟨Map.empty, false⟩

/-- `Interfaces::add_interface` (interface.rs): refuse once finalized;
otherwise insert into a vacant entry or fail on an occupied one. -/
def Interfaces.add_interface (self : Interfaces) (name : String)
    (iface : Interface) : Except Error Interfaces :=
  if self.finalized then
    Except.error (Error.interfacesFinalized name)
  else
    match self.map.find? name with
    | none => Except.ok { self with map := self.map.insert name iface }
    | some _ => Except.error (Error.interfaceAlreadyRegistered name)

/-- `Interfaces::finalize` (interface.rs): inject Peer, Properties and
Introspectable in that order, then mark the registry finalized; any
injection failure propagates through `try!`. -/
def Interfaces.finalize (self : Interfaces) (children : List String) :
    Except Error Interfaces :=
  ((self.add_interface "org.freedesktop.DBus.Peer" PeerInterface.new).bind
    fun this =>
      (this.add_interface "org.freedesktop.DBus.Properties"
        PropertyInterface.new).bind
    fun this =>
      this.add_interface "org.freedesktop.DBus.Introspectable"
        (IntrospectableInterface.new children)).map
    fun this => { this with finalized := true }

/-- `Interfaces::handle` (interface.rs): resolve the call target from the
headers, look up the method while holding the registry cell's mutable
borrow (`self.map.borrow_mut()`, whose `RefMut` guard lives across the
closure that runs the handler), run the handler under that borrow,
convert the outcome into a return or error message, and hand it to the
connection's send primitive. A handler that re-borrows the shared cell —
every finalize-injected standard handler that reaches its `map.borrow()`
— panics instead, and nothing is sent. -/
def Interfaces.handle (self : Interfaces) (conn : Connection) (msg : Message) :
    Option (PanicOr (Except Unit Unit)) :=
  msg.call_headers.bind fun hdrs =>
    ((self.map.find? hdrs.interface).bind fun iface =>
      iface.methods.find? hdrs.method).map fun method =>
      match runHandlerRt method.cb RefState.mutBorrowed self.map msg with
      | PanicOr.panic s => PanicOr.panic s
      | PanicOr.value result =>
        let out : Message :=
          match result with
          | Except.ok vals =>
            vals.foldl (fun m val => m.add_argument val) msg.return_message
          | Except.error err =>
            (msg.error_message err.name).add_argument
              (Value.basicValue (BasicValue.string err.message))
        PanicOr.value (((conn.send out).map fun _ => ()).mapError fun _ => ())

/-! ### Helper lemmas about the embedded `BTreeMap` and message building -/

theorem Map.find?_insert_self {α : Type} (m : Map α) (k : String) (v : α) :
    (m.insert k v).find? k = some v := by
  induction m with
  | nil => simp [Map.insert, Map.find?]
  | cons head tail ih =>
    obtain ⟨k', v'⟩ := head
    by_cases h1 : k < k'
    · simp [Map.insert, h1, Map.find?]
    · by_cases h2 : k = k'
      · simp [Map.insert, h1, h2, Map.find?]
      · simp [Map.insert, h1, h2, Map.find?, ih]

theorem Map.find?_insert_ne {α : Type} (m : Map α) {k k2 : String} (v : α)
    (h : k2 ≠ k) : (m.insert k v).find? k2 = m.find? k2 := by
  induction m with
  | nil => simp [Map.insert, Map.find?, h]
  | cons head tail ih =>
    obtain ⟨k', v'⟩ := head
    by_cases h1 : k < k'
    · simp [Map.insert, h1, Map.find?, h]
    · by_cases h2 : k = k'
      · subst h2
        simp [Map.insert, h1, Map.find?, h]
      · simp [Map.insert, h1, h2, Map.find?, ih]

theorem Map.mem_insert {α : Type} {m : Map α} {k : String} {v : α}
    {a : String × α} (h : a ∈ m.insert k v) : a = (k, v) ∨ a ∈ m := by
  induction m with
  | nil => simpa [Map.insert] using h
  | cons head tail ih =>
    obtain ⟨k', v'⟩ := head
    by_cases h1 : k < k'
    · simp only [Map.insert, if_pos h1, List.mem_cons] at h
      rcases h with h | h | h
      · exact Or.inl h
      · exact Or.inr (by simp [h])
      · exact Or.inr (List.mem_cons_of_mem _ h)
    · by_cases h2 : k = k'
      · simp only [Map.insert, if_neg h1, if_pos h2, List.mem_cons] at h
        rcases h with h | h
        · exact Or.inl h
        · exact Or.inr (List.mem_cons_of_mem _ h)
      · simp only [Map.insert, if_neg h1, if_neg h2, List.mem_cons] at h
        rcases h with h | h
        · exact Or.inr (h ▸ List.mem_cons_self (k', v') tail)
        · rcases ih h with h | h
          · exact Or.inl h
          · exact Or.inr (List.mem_cons_of_mem _ h)

theorem Map.insert_sorted {α : Type} {m : Map α} (k : String) (v : α)
    (h : m.Sorted) : (m.insert k v).Sorted := by
  induction m with
  | nil => simp [Map.insert, Map.Sorted]
  | cons head tail ih =>
    obtain ⟨k', v'⟩ := head
    rw [Map.Sorted, List.pairwise_cons] at h
    obtain ⟨hhead, htail⟩ := h
    by_cases h1 : k < k'
    · rw [Map.insert, if_pos h1, Map.Sorted, List.pairwise_cons]
      refine ⟨?_, List.pairwise_cons.mpr ⟨hhead, htail⟩⟩
      intro a ha
      rcases List.mem_cons.mp ha with rfl | ha
      · exact h1
      · exact lt_trans h1 (hhead a ha)
    · by_cases h2 : k = k'
      · rw [Map.insert, if_neg h1, if_pos h2, Map.Sorted, List.pairwise_cons]
        exact ⟨fun a ha => h2 ▸ hhead a ha, htail⟩
      · rw [Map.insert, if_neg h1, if_neg h2, Map.Sorted, List.pairwise_cons]
        refine ⟨?_, ih htail⟩
        intro a ha
        rcases Map.mem_insert ha with rfl | ha
        · exact lt_of_le_of_ne (le_of_not_lt h1) (Ne.symm h2)
        · exact hhead a ha

theorem Map.find?_eq_some_iff {α : Type} {m : Map α} (hs : m.Sorted)
    {k : String} {v : α} : m.find? k = some v ↔ (k, v) ∈ m := by
  induction m with
  | nil => simp [Map.find?]
  | cons head tail ih =>
    obtain ⟨k', v'⟩ := head
    rw [Map.Sorted, List.pairwise_cons] at hs
    obtain ⟨hhead, htail⟩ := hs
    by_cases hk : k = k'
    · subst hk
      rw [Map.find?, if_pos rfl]
      constructor
      · intro h
        injection h with h
        simp [h]
      · intro h
        rcases List.mem_cons.mp h with h | h
        · cases h; rfl
        · exact absurd (hhead _ h) (lt_irrefl k)
    · rw [Map.find?, if_neg hk]
      rw [ih htail]
      constructor
      · exact fun h => List.mem_cons_of_mem _ h
      · intro h
        rcases List.mem_cons.mp h with h | h
        · cases h; exact absurd rfl hk
        · exact h

theorem Map.keys_pairwise_of_sorted {α : Type} {m : Map α} (hs : m.Sorted) :
    List.Pairwise (fun a b => a < b) (m.map Prod.fst) := by
  rw [List.pairwise_map]
  exact hs

theorem foldl_add_argument (vals : List Value) (m : Message) (l : List Value)
    (h : m.body = some l) :
    vals.foldl (fun m val => m.add_argument val) m =
      { m with body := some (l ++ vals) } := by
  induction vals generalizing m l with
  | nil =>
    cases m
    simp_all [Message.add_argument]
  | cons v vs ih =>
    rw [List.foldl_cons]
    rw [ih (m.add_argument v) (l ++ [v]) (by simp [Message.add_argument, h])]
    simp [Message.add_argument, List.append_assoc]

theorem join_foldl (ws : List String) (t : String) :
    List.foldl (fun r s => r ++ s) t ws = t ++ String.join ws := by
  induction ws generalizing t with
  | nil => simp [String.join]
  | cons w ws ihw =>
    rw [List.foldl_cons, ihw (t ++ w)]
    show t ++ w ++ String.join ws = t ++ String.join (w :: ws)
    rw [show String.join (w :: ws) = List.foldl (fun r s => r ++ s) ("" ++ w) ws
        from rfl, String.empty_append, ihw w, String.append_assoc]

theorem join_cons (w : String) (ws : List String) :
    String.join (w :: ws) = w ++ String.join ws := by
  rw [show String.join (w :: ws) = List.foldl (fun r s => r ++ s) ("" ++ w) ws
      from rfl, String.empty_append, join_foldl]

theorem to_string_list_eq_join {α : Type} (f : α → String) (l : List α) :
    IntrospectableInterface._to_string_list l f = String.join (l.map f) := by
  have general : ∀ (l : List α) (s : String),
      l.foldl (fun p t => p ++ f t) s = s ++ String.join (l.map f) := by
    intro l
    induction l with
    | nil => intro s; simp [String.join]
    | cons x xs ih =>
      intro s
      rw [List.foldl_cons, ih (s ++ f x), List.map_cons, join_cons,
        String.append_assoc]
  rw [IntrospectableInterface._to_string_list, general l "", String.empty_append]

theorem to_string_map_eq_join {α : Type} (m : Map α) (f : String → α → String) :
    IntrospectableInterface._to_string_map m f =
      String.join (m.toList.map fun kv => f kv.1 kv.2) := by
  rw [IntrospectableInterface._to_string_map,
    show m.toList.foldl (fun p kv => p ++ f kv.1 kv.2) "" =
      IntrospectableInterface._to_string_list m.toList (fun kv => f kv.1 kv.2)
      from rfl,
    to_string_list_eq_join]

theorem join_split {α : Type} (f : α → String) {a : α} {l : List α}
    (h : a ∈ l) :
    ∃ pre post, String.join (l.map f) = pre ++ (f a ++ post) := by
  induction l with
  | nil => cases h
  | cons x xs ih =>
    rcases List.mem_cons.mp h with rfl | hmem
    · exact ⟨"", String.join (xs.map f), by
        rw [List.map_cons, join_cons, String.empty_append]⟩
    · obtain ⟨pre, post, hsplit⟩ := ih hmem
      exact ⟨f x ++ pre, post, by
        rw [List.map_cons, join_cons, hsplit, String.append_assoc]⟩

theorem except_error_bind {ε α β : Type} (e : ε) (f : α → Except ε β) :
    (Except.error e : Except ε α).bind f = Except.error e := rfl

theorem except_ok_bind {ε α β : Type} (a : α) (f : α → Except ε β) :
    (Except.ok a : Except ε α).bind f = f a := rfl

theorem except_error_map {ε α β : Type} (e : ε) (f : α → β) :
    (Except.error e : Except ε α).map f = Except.error e := rfl

theorem except_ok_map {ε α β : Type} (a : α) (f : α → β) :
    (Except.ok a : Except ε α).map f = Except.ok (f a) := rfl

theorem add_interface_finalized (self : Interfaces) (name : String)
    (iface : Interface) (hfin : self.finalized = true) :
    self.add_interface name iface =
      Except.error (Error.interfacesFinalized name) := by
  rw [Interfaces.add_interface, if_pos hfin]

theorem add_interface_occupied (self : Interfaces) (name : String)
    (iface old : Interface) (hfin : self.finalized = false)
    (hsome : self.map.find? name = some old) :
    self.add_interface name iface =
      Except.error (Error.interfaceAlreadyRegistered name) := by
  rw [Interfaces.add_interface,
    if_neg (by rw [hfin]; exact Bool.false_ne_true), hsome]

theorem add_interface_vacant (self : Interfaces) (name : String)
    (iface : Interface) (hfin : self.finalized = false)
    (hnone : self.map.find? name = none) :
    self.add_interface name iface =
      Except.ok { self with map := self.map.insert name iface } := by
  rw [Interfaces.add_interface,
    if_neg (by rw [hfin]; exact Bool.false_ne_true), hnone]

theorem get_property_value_found (i : Interface) (name : String) (p : Property)
    (h : i.properties.find? name = some p) :
    i.get_property_value name =
      match p.access with
      | PropertyAccess.ro ro => ro.map (fun v => [v])
      | PropertyAccess.rw rw _ => rw.map (fun v => [v])
      | PropertyAccess.wo _ =>
        Except.error
          ⟨"org.freedesktop.DBus.Error.Failed",
           "property is write-only: " ++ name⟩ := by
  rw [Interface.get_property_value, Interface._require_property, h]
  rfl

theorem set_property_value_found (i : Interface) (name : String) (p : Property)
    (value : Value) (h : i.properties.find? name = some p) :
    i.set_property_value name value =
      match p.access with
      | PropertyAccess.wo wo => (wo value).map (fun _ => [])
      | PropertyAccess.rw _ rw => (rw value).map (fun _ => [])
      | PropertyAccess.ro _ =>
        Except.error
          ⟨"org.freedesktop.DBus.Error.Failed",
           "property is read-only: " ++ name⟩ := by
  rw [Interface.set_property_value, Interface._require_property, h]
  rfl

/-! ### Claim theorems -/

/-- C2: `add_interface` fails with `InterfaceAlreadyRegistered(name)` when
the name is already registered (and the registry is not finalized), fails
with the finalized-registry error for every name once the registry is
finalized (taking precedence, whether or not the name was used), otherwise
inserts the interface and returns the updated registry; and two interfaces
under distinct names register into an empty registry successfully. -/
theorem C2_add_interface_contract (self : Interfaces) (name : String)
    (iface : Interface) :
    (self.finalized = true →
      self.add_interface name iface =
        Except.error (Error.interfacesFinalized name))
    ∧ (self.finalized = false → ∀ old, self.map.find? name = some old →
      self.add_interface name iface =
        Except.error (Error.interfaceAlreadyRegistered name))
    ∧ (self.finalized = false → self.map.find? name = none →
      self.add_interface name iface =
        Except.ok { self with map := self.map.insert name iface })
    ∧ (∀ (n1 n2 : String) (i1 i2 : Interface), n1 ≠ n2 →
      (Interfaces.new.add_interface n1 i1).bind
          (fun s => s.add_interface n2 i2) =
        Except.ok ⟨(Map.empty.insert n1 i1).insert n2 i2, false⟩) := by
  refine ⟨?_, ?_, ?_, ?_⟩
  · intro hfin
    rw [Interfaces.add_interface, if_pos hfin]
  · intro hfin old hfound
    rw [Interfaces.add_interface, if_neg (by rw [hfin]; exact Bool.false_ne_true),
      hfound]
  · intro hfin hnone
    rw [Interfaces.add_interface, if_neg (by rw [hfin]; exact Bool.false_ne_true),
      hnone]
  · intro n1 n2 i1 i2 hne
    rw [show Interfaces.new.add_interface n1 i1 =
        Except.ok ⟨Map.empty.insert n1 i1, false⟩ from rfl]
    rw [show (Except.ok ⟨Map.empty.insert n1 i1, false⟩ :
        Except Error Interfaces).bind (fun s => s.add_interface n2 i2) =
      (Interfaces.mk (Map.empty.insert n1 i1) false).add_interface n2 i2
      from rfl]
    rw [Interfaces.add_interface]
    simp only [if_neg (Bool.false_ne_true)]
    rw [Map.find?_insert_ne Map.empty i1 (Ne.symm hne)]
    rfl

/-- C2 witness: concrete applications of `C2_add_interface_contract` — an
insertion into the empty registry succeeds, a second insertion under the
same name fails, and two distinct names both register. -/
theorem C2_add_interface_contract_witness :
    Interfaces.new.finalized = false
    ∧ Map.find? Interfaces.new.map "org.example.A" = none
    ∧ Interfaces.new.add_interface "org.example.A" Interface.new =
        Except.ok ⟨Map.empty.insert "org.example.A" Interface.new, false⟩
    ∧ ("org.example.A" : String) ≠ "org.example.B"
    ∧ (Interfaces.new.add_interface "org.example.A" Interface.new).bind
        (fun s => s.add_interface "org.example.B" Interface.new) =
      Except.ok
        ⟨(Map.empty.insert "org.example.A" Interface.new).insert
          "org.example.B" Interface.new, false⟩ :=
  ⟨rfl, rfl,
    (C2_add_interface_contract Interfaces.new "org.example.A" Interface.new).2.2.1
      rfl rfl,
    by decide,
    (C2_add_interface_contract Interfaces.new "org.example.A" Interface.new).2.2.2
      "org.example.A" "org.example.B" Interface.new Interface.new (by decide)⟩

/-- C10: `add_method`, `add_property` and `add_signal` with an
already-present name succeed and silently replace the stored entry: the
new entry is found under the name afterwards, all other names are
untouched, and sortedness (hence key uniqueness) of each map is
preserved, so no duplicate entry is created. -/
theorem C10_add_replaces_silently (i : Interface) (name other : String)
    (m1 m2 : Method) (p1 p2 : Property) (sg1 sg2 : Signal)
    (hother : other ≠ name) :
    (((i.add_method name m1).add_method name m2).methods.find? name = some m2
      ∧ ((i.add_method name m1).add_method name m2).methods.find? other =
          i.methods.find? other
      ∧ (i.methods.Sorted →
          ((i.add_method name m1).add_method name m2).methods.Sorted))
    ∧ (((i.add_property name p1).add_property name p2).properties.find? name =
          some p2
      ∧ ((i.add_property name p1).add_property name p2).properties.find? other =
          i.properties.find? other
      ∧ (i.properties.Sorted →
          ((i.add_property name p1).add_property name p2).properties.Sorted))
    ∧ (((i.add_signal name sg1).add_signal name sg2).signals.find? name = some sg2
      ∧ ((i.add_signal name sg1).add_signal name sg2).signals.find? other =
          i.signals.find? other
      ∧ (i.signals.Sorted →
          ((i.add_signal name sg1).add_signal name sg2).signals.Sorted)) := by
  refine ⟨⟨?_, ?_, ?_⟩, ⟨?_, ?_, ?_⟩, ⟨?_, ?_, ?_⟩⟩
  · exact Map.find?_insert_self _ name m2
  · rw [Interface.add_method, Interface.add_method]
    rw [Map.find?_insert_ne _ m2 hother, Map.find?_insert_ne _ m1 hother]
  · intro hs
    exact Map.insert_sorted name m2 (Map.insert_sorted name m1 hs)
  · exact Map.find?_insert_self _ name p2
  · rw [Interface.add_property, Interface.add_property]
    rw [Map.find?_insert_ne _ p2 hother, Map.find?_insert_ne _ p1 hother]
  · intro hs
    exact Map.insert_sorted name p2 (Map.insert_sorted name p1 hs)
  · exact Map.find?_insert_self _ name sg2
  · rw [Interface.add_signal, Interface.add_signal]
    rw [Map.find?_insert_ne _ sg2 hother, Map.find?_insert_ne _ sg1 hother]
  · intro hs
    exact Map.insert_sorted name sg2 (Map.insert_sorted name sg1 hs)

/-- C10 witness: replacing the `Ping` method of the peer interface at a
concrete registry state. -/
theorem C10_add_replaces_silently_witness :
    ("GetMachineId" : String) ≠ "Ping"
    ∧ ((PeerInterface.new.add_method "Ping" (Method.new HandlerCode.peerPing)
        ).add_method "Ping"
          (Method.new HandlerCode.peerGetMachineId)).methods.find? "Ping" =
      some (Method.new HandlerCode.peerGetMachineId) :=
  ⟨by decide,
    (C10_add_replaces_silently PeerInterface.new "Ping" "GetMachineId"
      (Method.new HandlerCode.peerPing) (Method.new HandlerCode.peerGetMachineId)
      (Property.new_ro "s" (Except.ok (Value.basicValue (BasicValue.byte 0))))
      (Property.new_ro "s" (Except.ok (Value.basicValue (BasicValue.byte 1))))
      Signal.new Signal.new (by decide)).1.1⟩

/-- C5: `get_property_value` fails with `UnknownProperty` for an undeclared
name; for a ReadOnly or ReadWrite property it delegates to the reader and
wraps a successful value `V` as the single-element list `[V]`; for a
WriteOnly property it fails with a `Failed` error stating the property is
write-only. -/
theorem C5_get_property_value (i : Interface) (name : String) :
    (i.properties.find? name = none →
      i.get_property_value name = Except.error
        ⟨"org.freedesktop.DBus.Error.UnknownProperty",
         "unknown property: " ++ name⟩)
    ∧ (∀ p get, i.properties.find? name = some p →
        (p.access = PropertyAccess.ro get ∨
          ∃ set, p.access = PropertyAccess.rw get set) →
        (i.get_property_value name = get.map (fun v => [v])
          ∧ ∀ V, get = Except.ok V →
            i.get_property_value name = Except.ok [V]))
    ∧ (∀ p set, i.properties.find? name = some p →
        p.access = PropertyAccess.wo set →
        i.get_property_value name = Except.error
          ⟨"org.freedesktop.DBus.Error.Failed",
           "property is write-only: " ++ name⟩) := by
  refine ⟨?_, ?_, ?_⟩
  · intro hnone
    rw [Interface.get_property_value, Interface._require_property, hnone]
    rfl
  · intro p get hfound haccess
    have hval : i.get_property_value name = get.map (fun v => [v]) := by
      rw [get_property_value_found i name p hfound]
      rcases haccess with h | ⟨set, h⟩ <;> rw [h]
    exact ⟨hval, fun V hV => by rw [hval, hV]; rfl⟩
  · intro p set hfound haccess
    rw [get_property_value_found i name p hfound, haccess]

/-- C5 witness: a registry interface with one ReadOnly and one WriteOnly
property, read at the ReadOnly one. -/
theorem C5_get_property_value_witness :
    (Interface.mk Map.empty
        [("P", Property.new_ro "s"
            (Except.ok (Value.basicValue (BasicValue.string "V")))),
         ("W", Property.new_wo "s" (fun _ => Except.ok ()))]
        Map.empty).properties.find? "P" =
      some (Property.new_ro "s"
        (Except.ok (Value.basicValue (BasicValue.string "V"))))
    ∧ (Interface.mk Map.empty
        [("P", Property.new_ro "s"
            (Except.ok (Value.basicValue (BasicValue.string "V")))),
         ("W", Property.new_wo "s" (fun _ => Except.ok ()))]
        Map.empty).get_property_value "P" =
      Except.ok [Value.basicValue (BasicValue.string "V")] :=
  ⟨rfl,
    (((C5_get_property_value
        (Interface.mk Map.empty
          [("P", Property.new_ro "s"
              (Except.ok (Value.basicValue (BasicValue.string "V")))),
           ("W", Property.new_wo "s" (fun _ => Except.ok ()))]
          Map.empty) "P").2.1
      (Property.new_ro "s"
        (Except.ok (Value.basicValue (BasicValue.string "V"))))
      (Except.ok (Value.basicValue (BasicValue.string "V"))) rfl
      (Or.inl rfl)).2 (Value.basicValue (BasicValue.string "V")) rfl)⟩

/-- C6: `set_property_value` on a ReadOnly property fails with a `Failed`
read-only error — the ReadOnly access shape carries no writer capability at
all, so no writer can be invoked, and the reader delegate is untouched:
`get_property_value` still answers from the same reader afterwards — while
for WriteOnly and ReadWrite properties the writer runs and its success
value is discarded, yielding the empty result list. -/
theorem C6_set_property_readonly_frame (i : Interface) (name : String)
    (value : Value) :
    (∀ p get, i.properties.find? name = some p →
        p.access = PropertyAccess.ro get →
        (i.set_property_value name value = Except.error
            ⟨"org.freedesktop.DBus.Error.Failed",
             "property is read-only: " ++ name⟩
          ∧ i.get_property_value name = get.map (fun v => [v])))
    ∧ (∀ p set, i.properties.find? name = some p →
        p.access = PropertyAccess.wo set →
        i.set_property_value name value = (set value).map (fun _ => []))
    ∧ (∀ p get set, i.properties.find? name = some p →
        p.access = PropertyAccess.rw get set →
        i.set_property_value name value = (set value).map (fun _ => [])) := by
  refine ⟨?_, ?_, ?_⟩
  · intro p get hfound haccess
    constructor
    · rw [set_property_value_found i name p value hfound, haccess]
    · rw [get_property_value_found i name p hfound, haccess]
  · intro p set hfound haccess
    rw [set_property_value_found i name p value hfound, haccess]
  · intro p get set hfound haccess
    rw [set_property_value_found i name p value hfound, haccess]

/-- C6 witness: setting the ReadOnly property of a concrete interface fails
read-only and the reader still reports its value. -/
theorem C6_set_property_readonly_frame_witness :
    (Interface.mk Map.empty
        [("P", Property.new_ro "s"
            (Except.ok (Value.basicValue (BasicValue.string "V"))))]
        Map.empty).properties.find? "P" =
      some (Property.new_ro "s"
        (Except.ok (Value.basicValue (BasicValue.string "V"))))
    ∧ ((Interface.mk Map.empty
        [("P", Property.new_ro "s"
            (Except.ok (Value.basicValue (BasicValue.string "V"))))]
        Map.empty).set_property_value
        "P" (Value.basicValue (BasicValue.string "X")) =
      Except.error
        ⟨"org.freedesktop.DBus.Error.Failed", "property is read-only: " ++ "P"⟩
      ∧ (Interface.mk Map.empty
          [("P", Property.new_ro "s"
              (Except.ok (Value.basicValue (BasicValue.string "V"))))]
          Map.empty).get_property_value "P" =
        (Except.ok (Value.basicValue (BasicValue.string "V"))).map
          (fun v => [v])) :=
  ⟨rfl,
    (C6_set_property_readonly_frame
      (Interface.mk Map.empty
        [("P", Property.new_ro "s"
            (Except.ok (Value.basicValue (BasicValue.string "V"))))]
        Map.empty) "P"
      (Value.basicValue (BasicValue.string "X"))).1
      (Property.new_ro "s"
        (Except.ok (Value.basicValue (BasicValue.string "V"))))
      (Except.ok (Value.basicValue (BasicValue.string "V"))) rfl rfl⟩

/-- C4: `handle` returns `None` for every message without call-target
headers, and for every call whose target interface or target method is not
registered; the result is `None` for every connection, so no reply is sent
and no handler runs, leaving the message for other consumers. -/
theorem C4_handle_returns_none_when_not_mine (self : Interfaces)
    (conn : Connection) (msg : Message) :
    (msg.call_headers = none → self.handle conn msg = none)
    ∧ (∀ hdrs, msg.call_headers = some hdrs →
        self.map.find? hdrs.interface = none → self.handle conn msg = none)
    ∧ (∀ hdrs iface, msg.call_headers = some hdrs →
        self.map.find? hdrs.interface = some iface →
        iface.methods.find? hdrs.method = none →
        self.handle conn msg = none) := by
  refine ⟨?_, ?_, ?_⟩
  · intro hnone
    rw [Interfaces.handle, hnone, Option.none_bind]
  · intro hdrs hsome hnone
    rw [Interfaces.handle, hsome, Option.some_bind, hnone, Option.none_bind]
    rfl
  · intro hdrs iface hsome hfound hnone
    rw [Interfaces.handle, hsome, Option.some_bind, hfound, Option.some_bind,
      hnone]
    rfl

/-- C4 witness: a signal-like message and a call to an unregistered
interface are both declined by an empty registry. -/
theorem C4_handle_returns_none_when_not_mine_witness :
    (Message.mk MessageKind.other 7 (some [])).call_headers = none
    ∧ Interfaces.new.handle ⟨fun _ => Except.ok ()⟩
        (Message.mk MessageKind.other 7 (some [])) = none
    ∧ (Message.mk (MessageKind.methodCall ⟨"org.example.A", "/", "M"⟩) 8
        (some [])).call_headers = some ⟨"org.example.A", "/", "M"⟩
    ∧ Map.find? Interfaces.new.map "org.example.A" = none
    ∧ Interfaces.new.handle ⟨fun _ => Except.ok ()⟩
        (Message.mk (MessageKind.methodCall ⟨"org.example.A", "/", "M"⟩) 8
          (some [])) = none :=
  ⟨rfl,
    (C4_handle_returns_none_when_not_mine Interfaces.new ⟨fun _ => Except.ok ()⟩
      (Message.mk MessageKind.other 7 (some []))).1 rfl,
    rfl, rfl,
    (C4_handle_returns_none_when_not_mine Interfaces.new ⟨fun _ => Except.ok ()⟩
      (Message.mk (MessageKind.methodCall ⟨"org.example.A", "/", "M"⟩) 8
        (some []))).2.1 ⟨"org.example.A", "/", "M"⟩ rfl rfl⟩

theorem get_property_rt_free (map : Map Interface) (m : Message) :
    PropertyInterface.get_property_rt RefState.free map m =
      PanicOr.value (PropertyInterface.get_property map m) := by
  cases hnew : Arguments.new m with
  | error e =>
    simp only [PropertyInterface.get_property_rt,
      PropertyInterface.get_property, hnew, except_error_bind]
  | ok values =>
    cases h0 : values.extract_string 0 with
    | error e =>
      simp only [PropertyInterface.get_property_rt,
        PropertyInterface.get_property, hnew, h0, except_ok_bind,
        except_error_bind]
    | ok iface_name =>
      cases h1 : values.extract_string 1 with
      | error e =>
        simp only [PropertyInterface.get_property_rt,
          PropertyInterface.get_property, hnew, h0, h1, except_ok_bind,
          except_error_bind]
      | ok property =>
        simp only [PropertyInterface.get_property_rt,
          PropertyInterface.get_property, hnew, h0, h1, except_ok_bind,
          borrowShared]

theorem set_property_rt_free (map : Map Interface) (m : Message) :
    PropertyInterface.set_property_rt RefState.free map m =
      PanicOr.value (PropertyInterface.set_property map m) := by
  cases hnew : Arguments.new m with
  | error e =>
    simp only [PropertyInterface.set_property_rt,
      PropertyInterface.set_property, hnew, except_error_bind]
  | ok values =>
    cases h0 : values.extract_string 0 with
    | error e =>
      simp only [PropertyInterface.set_property_rt,
        PropertyInterface.set_property, hnew, h0, except_ok_bind,
        except_error_bind]
    | ok iface_name =>
      cases h1 : values.extract_string 1 with
      | error e =>
        simp only [PropertyInterface.set_property_rt,
          PropertyInterface.set_property, hnew, h0, h1, except_ok_bind,
          except_error_bind]
      | ok property =>
        cases h2 : values.extract 2 with
        | error e =>
          simp only [PropertyInterface.set_property_rt,
            PropertyInterface.set_property, hnew, h0, h1, h2, except_ok_bind,
            except_error_bind]
        | ok value =>
          simp only [PropertyInterface.set_property_rt,
            PropertyInterface.set_property, hnew, h0, h1, h2, except_ok_bind,
            borrowShared]

theorem get_all_properties_rt_free (map : Map Interface) (m : Message) :
    PropertyInterface.get_all_properties_rt RefState.free map m =
      PanicOr.value (PropertyInterface.get_all_properties map m) := by
  cases hnew : Arguments.new m with
  | error e =>
    simp only [PropertyInterface.get_all_properties_rt,
      PropertyInterface.get_all_properties, hnew, except_error_bind]
  | ok values =>
    cases h0 : values.extract_string 0 with
    | error e =>
      simp only [PropertyInterface.get_all_properties_rt,
        PropertyInterface.get_all_properties, hnew, h0, except_ok_bind,
        except_error_bind]
    | ok iface_name =>
      simp only [PropertyInterface.get_all_properties_rt,
        PropertyInterface.get_all_properties, hnew, h0, except_ok_bind,
        borrowShared]

theorem runHandlerRt_free (cb : HandlerCode) (map : Map Interface)
    (msg : Message) :
    runHandlerRt cb RefState.free map msg =
      PanicOr.value (runHandler cb map msg) := by
  cases cb with
  | user f => rfl
  | peerPing => rfl
  | peerGetMachineId => rfl
  | propsGet =>
    rw [runHandlerRt, runHandler, get_property_rt_free]
  | propsSet =>
    rw [runHandlerRt, runHandler, set_property_rt_free]
  | propsGetAll =>
    rw [runHandlerRt, runHandler, get_all_properties_rt_free]
  | introspect children => rfl

/-- C1 (code bug): the claim — every call to a registered interface and
method runs its handler and sends exactly one reply — matches the spec's
clear intent (§4.1/§4.4/§8 describe the injected standard interfaces
answering), but the code slips: `Interfaces::handle` holds the registry
cell's `borrow_mut()` guard across `(method.cb)(msg)`, and the
finalize-injected handlers re-borrow that same cell at call time
(interface.rs:369 unconditionally for `Introspect`; interface.rs:311/322/
331 after successful argument extraction for `Get`/`Set`/`GetAll`), which
panics. Evaluated here at a freshly finalized registry: dispatching
`Introspect` — a registered interface and method — panics for every
connection, and nothing is sent. -/
theorem C1_standard_handler_dispatch_panics :
    ∃ r, Interfaces.new.finalize ["c"] = Except.ok r
      ∧ r.map.find? "org.freedesktop.DBus.Introspectable" =
          some (IntrospectableInterface.new ["c"])
      ∧ (IntrospectableInterface.new ["c"]).methods.find? "Introspect" =
          some ((Method.new (HandlerCode.introspect ["c"])).add_result
            (Argument.mk "xml_data" "s"))
      ∧ ∀ conn : Connection,
          r.handle conn (Message.mk (MessageKind.methodCall
            ⟨"org.freedesktop.DBus.Introspectable", "/", "Introspect"⟩) 9
            (some [])) = some (PanicOr.panic borrowPanicMessage) := by
  have hqp : ("org.freedesktop.DBus.Properties" : String) ≠
      "org.freedesktop.DBus.Peer" := by decide
  have hip : ("org.freedesktop.DBus.Introspectable" : String) ≠
      "org.freedesktop.DBus.Peer" := by decide
  have hiq : ("org.freedesktop.DBus.Introspectable" : String) ≠
      "org.freedesktop.DBus.Properties" := by decide
  have hfind3 : ((Map.empty.insert "org.freedesktop.DBus.Peer"
      PeerInterface.new).insert "org.freedesktop.DBus.Properties"
      PropertyInterface.new).find? "org.freedesktop.DBus.Introspectable" =
      none := by
    rw [Map.find?_insert_ne _ PropertyInterface.new hiq,
      Map.find?_insert_ne _ PeerInterface.new hip]
    rfl
  have s1 : Interfaces.new.add_interface "org.freedesktop.DBus.Peer"
      PeerInterface.new = Except.ok
      (Interfaces.mk (Map.empty.insert "org.freedesktop.DBus.Peer"
        PeerInterface.new) false) := rfl
  have s2 : (Interfaces.mk (Map.empty.insert "org.freedesktop.DBus.Peer"
      PeerInterface.new) false).add_interface
      "org.freedesktop.DBus.Properties" PropertyInterface.new = Except.ok
      (Interfaces.mk ((Map.empty.insert "org.freedesktop.DBus.Peer"
        PeerInterface.new).insert "org.freedesktop.DBus.Properties"
        PropertyInterface.new) false) :=
    add_interface_vacant
      (Interfaces.mk (Map.empty.insert "org.freedesktop.DBus.Peer"
        PeerInterface.new) false)
      "org.freedesktop.DBus.Properties" PropertyInterface.new rfl rfl
  have s3 : (Interfaces.mk ((Map.empty.insert "org.freedesktop.DBus.Peer"
      PeerInterface.new).insert "org.freedesktop.DBus.Properties"
      PropertyInterface.new) false).add_interface
      "org.freedesktop.DBus.Introspectable"
      (IntrospectableInterface.new ["c"]) = Except.ok
      (Interfaces.mk (((Map.empty.insert "org.freedesktop.DBus.Peer"
        PeerInterface.new).insert "org.freedesktop.DBus.Properties"
        PropertyInterface.new).insert "org.freedesktop.DBus.Introspectable"
        (IntrospectableInterface.new ["c"])) false) :=
    add_interface_vacant
      (Interfaces.mk ((Map.empty.insert "org.freedesktop.DBus.Peer"
        PeerInterface.new).insert "org.freedesktop.DBus.Properties"
        PropertyInterface.new) false)
      "org.freedesktop.DBus.Introspectable"
      (IntrospectableInterface.new ["c"]) rfl hfind3
  have hfin : Interfaces.new.finalize ["c"] = Except.ok
      ⟨((Map.empty.insert "org.freedesktop.DBus.Peer"
          PeerInterface.new).insert "org.freedesktop.DBus.Properties"
          PropertyInterface.new).insert "org.freedesktop.DBus.Introspectable"
          (IntrospectableInterface.new ["c"]), true⟩ := by
    simp only [Interfaces.finalize, s1, except_ok_bind, s2, s3,
      except_ok_map]
  refine ⟨⟨((Map.empty.insert "org.freedesktop.DBus.Peer"
      PeerInterface.new).insert "org.freedesktop.DBus.Properties"
      PropertyInterface.new).insert "org.freedesktop.DBus.Introspectable"
      (IntrospectableInterface.new ["c"]), true⟩,
    hfin, Map.find?_insert_self _ _ _, rfl, ?_⟩
  intro conn
  rw [Interfaces.handle,
    show (Message.mk (MessageKind.methodCall
      ⟨"org.freedesktop.DBus.Introspectable", "/", "Introspect"⟩) 9
      (some [])).call_headers =
      some ⟨"org.freedesktop.DBus.Introspectable", "/", "Introspect"⟩
      from rfl,
    Option.some_bind,
    show (Interfaces.mk (((Map.empty.insert "org.freedesktop.DBus.Peer"
      PeerInterface.new).insert "org.freedesktop.DBus.Properties"
      PropertyInterface.new).insert "org.freedesktop.DBus.Introspectable"
      (IntrospectableInterface.new ["c"])) true).map =
      ((Map.empty.insert "org.freedesktop.DBus.Peer"
        PeerInterface.new).insert "org.freedesktop.DBus.Properties"
        PropertyInterface.new).insert "org.freedesktop.DBus.Introspectable"
        (IntrospectableInterface.new ["c"]) from rfl,
    Map.find?_insert_self _ _ _, Option.some_bind]
  rfl

/-- C9: extracting a typed argument from the positional list is a total
function (hence cannot panic); an absent position, or a non-string value at
a position required to be a string, yields the `InvalidArgs` error naming
the offending position ("invalid argument at N"); and when extraction
fails, the Properties Get/Set/GetAll handler bodies return that error for
every registry map, touching no interface or property. -/
theorem C9_extract_argument_errors :
    (∀ (args : Arguments) (index : Nat),
      args.values.get? index = none →
      args.extract_string index =
        Except.error (Arguments.invalid_argument index))
    ∧ (∀ (args : Arguments) (index : Nat) (v : Value),
      args.values.get? index = some v →
      (∀ s, v ≠ Value.basicValue (BasicValue.string s)) →
      args.extract_string index =
        Except.error (Arguments.invalid_argument index))
    ∧ (∀ index : Nat, Arguments.invalid_argument index =
        ⟨"org.freedesktop.DBus.Error.InvalidArgs",
         "invalid argument at " ++ toString index⟩)
    ∧ (∀ (map1 map2 : Map Interface) (msg : Message) (e : ErrorMessage),
      ((Arguments.new msg).bind fun a => a.extract_string 0) =
        Except.error e →
      (PropertyInterface.get_property map1 msg = Except.error e
        ∧ PropertyInterface.get_property map2 msg = Except.error e
        ∧ PropertyInterface.set_property map1 msg = Except.error e
        ∧ PropertyInterface.get_all_properties map1 msg = Except.error e))
    ∧ (∀ (map1 : Map Interface) (msg : Message) (e : ErrorMessage)
        (a : Arguments) (s0 : String),
      Arguments.new msg = Except.ok a →
      a.extract_string 0 = Except.ok s0 →
      a.extract_string 1 = Except.error e →
      (PropertyInterface.get_property map1 msg = Except.error e
        ∧ PropertyInterface.set_property map1 msg = Except.error e)) := by
  refine ⟨?_, ?_, ?_, ?_, ?_⟩
  · intro args index h
    rw [Arguments.extract_string, Arguments.extract, h]
    rfl
  · intro args index v h hne
    rw [Arguments.extract_string, Arguments.extract, h, except_ok_bind]
    rcases v with b | v | d
    · rcases b with s | b
      · exact absurd rfl (hne s)
      · rfl
    · rfl
    · rfl
  · intro index
    rfl
  · intro map1 map2 msg e hfail
    cases hnew : Arguments.new msg with
    | error e0 =>
      rw [hnew, except_error_bind] at hfail
      injection hfail with h
      subst h
      refine ⟨?_, ?_, ?_, ?_⟩
      · rw [PropertyInterface.get_property, hnew, except_error_bind]
      · rw [PropertyInterface.get_property, hnew, except_error_bind]
      · rw [PropertyInterface.set_property, hnew, except_error_bind]
      · rw [PropertyInterface.get_all_properties, hnew, except_error_bind]
    | ok a =>
      rw [hnew, except_ok_bind] at hfail
      refine ⟨?_, ?_, ?_, ?_⟩
      · rw [PropertyInterface.get_property, hnew, except_ok_bind, hfail,
          except_error_bind]
      · rw [PropertyInterface.get_property, hnew, except_ok_bind, hfail,
          except_error_bind]
      · rw [PropertyInterface.set_property, hnew, except_ok_bind, hfail,
          except_error_bind]
      · rw [PropertyInterface.get_all_properties, hnew, except_ok_bind, hfail]
        rfl
  · intro map1 msg e a s0 hnew hs0 h1
    refine ⟨?_, ?_⟩
    · rw [PropertyInterface.get_property, hnew, except_ok_bind, hs0,
        except_ok_bind, h1, except_error_bind]
    · rw [PropertyInterface.set_property, hnew, except_ok_bind, hs0,
        except_ok_bind, h1, except_error_bind]

/-- C9 witness: a call whose first argument is a byte rather than a string
makes `extract_string 0` fail with "invalid argument at 0", and the
Get/Set/GetAll handler bodies return exactly that error on two different
registry maps. -/
theorem C9_extract_argument_errors_witness :
    (Arguments.mk [Value.basicValue (BasicValue.byte 3)]).values.get? 0 =
      some (Value.basicValue (BasicValue.byte 3))
    ∧ (Arguments.mk [Value.basicValue (BasicValue.byte 3)]).extract_string 0 =
      Except.error (Arguments.invalid_argument 0)
    ∧ ((Arguments.new
          (Message.mk MessageKind.other 1
            (some [Value.basicValue (BasicValue.byte 3)]))).bind
        fun a => a.extract_string 0) =
      Except.error (Arguments.invalid_argument 0)
    ∧ PropertyInterface.get_property Map.empty
        (Message.mk MessageKind.other 1
          (some [Value.basicValue (BasicValue.byte 3)])) =
      Except.error (Arguments.invalid_argument 0)
    ∧ PropertyInterface.get_property
        [("I", Interface.new)]
        (Message.mk MessageKind.other 1
          (some [Value.basicValue (BasicValue.byte 3)])) =
      Except.error (Arguments.invalid_argument 0) :=
  ⟨rfl,
    (C9_extract_argument_errors).2.1
      (Arguments.mk [Value.basicValue (BasicValue.byte 3)]) 0
      (Value.basicValue (BasicValue.byte 3)) rfl
      (fun s h => by injection h with h2; exact BasicValue.noConfusion h2),
    rfl,
    ((C9_extract_argument_errors).2.2.2.1 Map.empty [("I", Interface.new)]
      (Message.mk MessageKind.other 1
        (some [Value.basicValue (BasicValue.byte 3)]))
      (Arguments.invalid_argument 0) rfl).1,
    ((C9_extract_argument_errors).2.2.2.1 Map.empty [("I", Interface.new)]
      (Message.mk MessageKind.other 1
        (some [Value.basicValue (BasicValue.byte 3)]))
      (Arguments.invalid_argument 0) rfl).2.1⟩

/-- C3: `finalize` adds, in order, the peer interface, the property-access
interface bound to this same registry, and the introspection interface
bound to this registry plus the supplied child names, then marks the
registry finalized; the first failing injection's error propagates (an
earlier name collision shadows a later one, and a finalized registry fails
at the first injection), and no partially-extended registry is ever
returned: every successful result carries exactly the pre-finalize map
extended by the three standard interfaces. -/
theorem C3_finalize_contract (self : Interfaces) (children : List String) :
    (self.finalized = false →
      self.map.find? "org.freedesktop.DBus.Peer" = none →
      self.map.find? "org.freedesktop.DBus.Properties" = none →
      self.map.find? "org.freedesktop.DBus.Introspectable" = none →
      self.finalize children = Except.ok
        ⟨((self.map.insert "org.freedesktop.DBus.Peer"
            PeerInterface.new).insert "org.freedesktop.DBus.Properties"
            PropertyInterface.new).insert "org.freedesktop.DBus.Introspectable"
            (IntrospectableInterface.new children), true⟩)
    ∧ (self.finalized = true →
      self.finalize children =
        Except.error (Error.interfacesFinalized "org.freedesktop.DBus.Peer"))
    ∧ (self.finalized = false → ∀ old,
      self.map.find? "org.freedesktop.DBus.Peer" = some old →
      self.finalize children = Except.error
        (Error.interfaceAlreadyRegistered "org.freedesktop.DBus.Peer"))
    ∧ (self.finalized = false →
      self.map.find? "org.freedesktop.DBus.Peer" = none → ∀ old,
      self.map.find? "org.freedesktop.DBus.Properties" = some old →
      self.finalize children = Except.error
        (Error.interfaceAlreadyRegistered "org.freedesktop.DBus.Properties"))
    ∧ (self.finalized = false →
      self.map.find? "org.freedesktop.DBus.Peer" = none →
      self.map.find? "org.freedesktop.DBus.Properties" = none → ∀ old,
      self.map.find? "org.freedesktop.DBus.Introspectable" = some old →
      self.finalize children = Except.error
        (Error.interfaceAlreadyRegistered
          "org.freedesktop.DBus.Introspectable"))
    ∧ (∀ r, self.finalize children = Except.ok r →
      (self.finalized = false
        ∧ r.finalized = true
        ∧ r.map = ((self.map.insert "org.freedesktop.DBus.Peer"
            PeerInterface.new).insert "org.freedesktop.DBus.Properties"
            PropertyInterface.new).insert "org.freedesktop.DBus.Introspectable"
            (IntrospectableInterface.new children))) := by
  obtain ⟨m, fin⟩ := self
  have hqp : ("org.freedesktop.DBus.Properties" : String) ≠
      "org.freedesktop.DBus.Peer" := by decide
  have hip : ("org.freedesktop.DBus.Introspectable" : String) ≠
      "org.freedesktop.DBus.Peer" := by decide
  have hiq : ("org.freedesktop.DBus.Introspectable" : String) ≠
      "org.freedesktop.DBus.Properties" := by decide
  refine ⟨?_, ?_, ?_, ?_, ?_, ?_⟩
  · intro hfin h1 h2 h3
    cases hfin
    rw [Interfaces.finalize,
      add_interface_vacant _ _ _ rfl h1, except_ok_bind,
      add_interface_vacant _ _ _ rfl
        (by rw [show (Interfaces.mk
            (m.insert "org.freedesktop.DBus.Peer" PeerInterface.new) false).map =
            m.insert "org.freedesktop.DBus.Peer" PeerInterface.new from rfl,
          Map.find?_insert_ne m PeerInterface.new hqp]; exact h2),
      except_ok_bind,
      add_interface_vacant _ _ _ rfl
        (by rw [show (Interfaces.mk
            ((m.insert "org.freedesktop.DBus.Peer" PeerInterface.new).insert
              "org.freedesktop.DBus.Properties" PropertyInterface.new)
            false).map =
            (m.insert "org.freedesktop.DBus.Peer" PeerInterface.new).insert
              "org.freedesktop.DBus.Properties" PropertyInterface.new from rfl,
          Map.find?_insert_ne _ PropertyInterface.new hiq,
          Map.find?_insert_ne m PeerInterface.new hip]; exact h3),
      except_ok_map]
  · intro hfin
    cases hfin
    rw [Interfaces.finalize, add_interface_finalized _ _ _ rfl,
      except_error_bind, except_error_map]
  · intro hfin old h1
    cases hfin
    rw [Interfaces.finalize, add_interface_occupied _ _ _ old rfl h1,
      except_error_bind, except_error_map]
  · intro hfin h1 old h2
    cases hfin
    rw [Interfaces.finalize,
      add_interface_vacant _ _ _ rfl h1, except_ok_bind,
      add_interface_occupied _ _ _ old rfl
        (by rw [show (Interfaces.mk
            (m.insert "org.freedesktop.DBus.Peer" PeerInterface.new) false).map =
            m.insert "org.freedesktop.DBus.Peer" PeerInterface.new from rfl,
          Map.find?_insert_ne m PeerInterface.new hqp]; exact h2),
      except_error_bind, except_error_map]
  · intro hfin h1 h2 old h3
    cases hfin
    rw [Interfaces.finalize,
      add_interface_vacant _ _ _ rfl h1, except_ok_bind,
      add_interface_vacant _ _ _ rfl
        (by rw [show (Interfaces.mk
            (m.insert "org.freedesktop.DBus.Peer" PeerInterface.new) false).map =
            m.insert "org.freedesktop.DBus.Peer" PeerInterface.new from rfl,
          Map.find?_insert_ne m PeerInterface.new hqp]; exact h2),
      except_ok_bind,
      add_interface_occupied _ _ _ old rfl
        (by rw [show (Interfaces.mk
            ((m.insert "org.freedesktop.DBus.Peer" PeerInterface.new).insert
              "org.freedesktop.DBus.Properties" PropertyInterface.new)
            false).map =
            (m.insert "org.freedesktop.DBus.Peer" PeerInterface.new).insert
              "org.freedesktop.DBus.Properties" PropertyInterface.new from rfl,
          Map.find?_insert_ne _ PropertyInterface.new hiq,
          Map.find?_insert_ne m PeerInterface.new hip]; exact h3),
      except_error_map]
  · intro r hok
    cases fin with
    | true =>
      rw [Interfaces.finalize, add_interface_finalized _ _ _ rfl,
        except_error_bind, except_error_map] at hok
      exact absurd hok (by intro h; cases h)
    | false =>
      cases h1 : m.find? "org.freedesktop.DBus.Peer" with
      | some old =>
        rw [Interfaces.finalize, add_interface_occupied _ _ _ old rfl h1,
          except_error_bind, except_error_map] at hok
        exact absurd hok (by intro h; cases h)
      | none =>
        have hmap1 : (Interfaces.mk
            (m.insert "org.freedesktop.DBus.Peer" PeerInterface.new)
            false).map =
            m.insert "org.freedesktop.DBus.Peer" PeerInterface.new := rfl
        cases h2 : m.find? "org.freedesktop.DBus.Properties" with
        | some old =>
          rw [Interfaces.finalize, add_interface_vacant _ _ _ rfl h1,
            except_ok_bind,
            add_interface_occupied _ _ _ old rfl
              (by rw [hmap1, Map.find?_insert_ne m PeerInterface.new hqp]
                  exact h2),
            except_error_bind, except_error_map] at hok
          exact absurd hok (by intro h; cases h)
        | none =>
          have hmap2 : (Interfaces.mk
              ((m.insert "org.freedesktop.DBus.Peer" PeerInterface.new).insert
                "org.freedesktop.DBus.Properties" PropertyInterface.new)
              false).map =
              (m.insert "org.freedesktop.DBus.Peer" PeerInterface.new).insert
                "org.freedesktop.DBus.Properties" PropertyInterface.new := rfl
          cases h3 : m.find? "org.freedesktop.DBus.Introspectable" with
          | some old =>
            rw [Interfaces.finalize, add_interface_vacant _ _ _ rfl h1,
              except_ok_bind,
              add_interface_vacant _ _ _ rfl
                (by rw [hmap1, Map.find?_insert_ne m PeerInterface.new hqp]
                    exact h2),
              except_ok_bind,
              add_interface_occupied _ _ _ old rfl
                (by rw [hmap2, Map.find?_insert_ne _ PropertyInterface.new hiq,
                      Map.find?_insert_ne m PeerInterface.new hip]
                    exact h3),
              except_error_map] at hok
            exact absurd hok (by intro h; cases h)
          | none =>
            rw [Interfaces.finalize, add_interface_vacant _ _ _ rfl h1,
              except_ok_bind,
              add_interface_vacant _ _ _ rfl
                (by rw [hmap1, Map.find?_insert_ne m PeerInterface.new hqp]
                    exact h2),
              except_ok_bind,
              add_interface_vacant _ _ _ rfl
                (by rw [hmap2, Map.find?_insert_ne _ PropertyInterface.new hiq,
                      Map.find?_insert_ne m PeerInterface.new hip]
                    exact h3),
              except_ok_map] at hok
            injection hok with hok
            subst hok
            exact ⟨rfl, rfl, rfl⟩

/-- C3 witness: finalizing a fresh registry succeeds and yields exactly the
three standard interfaces in injection order, marked finalized. -/
theorem C3_finalize_contract_witness :
    Interfaces.new.finalized = false
    ∧ Map.find? Interfaces.new.map "org.freedesktop.DBus.Peer" = none
    ∧ Map.find? Interfaces.new.map "org.freedesktop.DBus.Properties" = none
    ∧ Map.find? Interfaces.new.map "org.freedesktop.DBus.Introspectable" = none
    ∧ Interfaces.new.finalize ["child0"] = Except.ok
        ⟨((Interfaces.new.map.insert "org.freedesktop.DBus.Peer"
            PeerInterface.new).insert "org.freedesktop.DBus.Properties"
            PropertyInterface.new).insert "org.freedesktop.DBus.Introspectable"
            (IntrospectableInterface.new ["child0"]), true⟩ :=
  ⟨rfl, rfl, rfl, rfl,
    (C3_finalize_contract Interfaces.new ["child0"]).1 rfl rfl rfl rfl⟩

theorem get_property_map_eq_filterMap (i : Interface) :
    i.get_property_map = i.properties.filterMap (fun kv =>
      (match kv.2.access with
       | PropertyAccess.ro ro => ro.toOption
       | PropertyAccess.rw rw _ => rw.toOption
       | PropertyAccess.wo _ => none).map (fun v =>
        (BasicValue.string kv.1, v))) := by
  rw [Interface.get_property_map, Map.toList, List.filterMap_map]
  rfl

theorem gpm_keys_aux (l : List (String × Property))
    (hl : List.Pairwise (fun a b => a.1 < b.1) l) :
    ∃ ks : List String,
      (l.filterMap (fun kv =>
        (match kv.2.access with
         | PropertyAccess.ro ro => ro.toOption
         | PropertyAccess.rw rw _ => rw.toOption
         | PropertyAccess.wo _ => none).map (fun v =>
          (BasicValue.string kv.1, v)))).map Prod.fst = ks.map BasicValue.string
      ∧ List.Pairwise (fun a b => a < b) ks
      ∧ ∀ k ∈ ks, ∃ p, (k, p) ∈ l := by
  induction l with
  | nil => exact ⟨[], rfl, List.Pairwise.nil, by simp⟩
  | cons hd tl ih =>
    rw [List.pairwise_cons] at hl
    obtain ⟨hhd, htl⟩ := hl
    obtain ⟨ks, hks, hpw, hmem⟩ := ih htl
    cases hg : (match hd.2.access with
       | PropertyAccess.ro ro => ro.toOption
       | PropertyAccess.rw rw _ => rw.toOption
       | PropertyAccess.wo _ => none) with
    | none =>
      refine ⟨ks, ?_, hpw, ?_⟩
      · rw [List.filterMap_cons]
        simp only [hg, Option.map_none']
        exact hks
      · intro k hk
        obtain ⟨p, hp⟩ := hmem k hk
        exact ⟨p, List.mem_cons_of_mem _ hp⟩
    | some v =>
      refine ⟨hd.1 :: ks, ?_, ?_, ?_⟩
      · rw [List.filterMap_cons]
        simp only [hg, Option.map_some']
        rw [List.map_cons, hks, List.map_cons]
      · rw [List.pairwise_cons]
        refine ⟨?_, hpw⟩
        intro k hk
        obtain ⟨p, hp⟩ := hmem k hk
        exact hhd (k, p) hp
      · intro k hk
        rcases List.mem_cons.mp hk with rfl | hk
        · exact ⟨hd.2, by simp⟩
        · obtain ⟨p, hp⟩ := hmem k hk
          exact ⟨p, List.mem_cons_of_mem _ hp⟩

/-- C7: `get_property_map` (backing `Properties.GetAll`) returns exactly
the successful reads of the declared readable properties: a key/value pair
is in the result precisely when the property is declared under that name
and its readable access mode yields that value; every WriteOnly property
and every property whose read fails is silently omitted; and the kept keys
are string keys in declared-name order. -/
theorem C7_get_property_map_successful_reads (i : Interface)
    (hs : i.properties.Sorted) :
    (∀ (k : String) (v : Value),
      (BasicValue.string k, v) ∈ i.get_property_map ↔
        ∃ p, (k, p) ∈ i.properties ∧
          (match p.access with
           | PropertyAccess.ro ro => ro.toOption
           | PropertyAccess.rw rw _ => rw.toOption
           | PropertyAccess.wo _ => none) = some v)
    ∧ (∀ (k : String) (p : Property) (set : Value → PropertySetResult),
      (k, p) ∈ i.properties → p.access = PropertyAccess.wo set →
      ∀ v, (BasicValue.string k, v) ∉ i.get_property_map)
    ∧ (∀ (k : String) (p : Property) (e : ErrorMessage),
      (k, p) ∈ i.properties →
      (p.access = PropertyAccess.ro (Except.error e) ∨
        ∃ set, p.access = PropertyAccess.rw (Except.error e) set) →
      ∀ v, (BasicValue.string k, v) ∉ i.get_property_map)
    ∧ (∃ ks : List String,
      i.get_property_map.map Prod.fst = ks.map BasicValue.string
      ∧ List.Pairwise (fun a b => a < b) ks
      ∧ ∀ k ∈ ks, ∃ p, (k, p) ∈ i.properties) := by
  have hmem_iff : ∀ (k : String) (v : Value),
      (BasicValue.string k, v) ∈ i.get_property_map ↔
        ∃ p, (k, p) ∈ i.properties ∧
          (match p.access with
           | PropertyAccess.ro ro => ro.toOption
           | PropertyAccess.rw rw _ => rw.toOption
           | PropertyAccess.wo _ => none) = some v := by
    intro k v
    rw [get_property_map_eq_filterMap, List.mem_filterMap]
    constructor
    · rintro ⟨kv, hkv, hmap⟩
      rw [Option.map_eq_some'] at hmap
      obtain ⟨v0, hmatch, heq⟩ := hmap
      injection heq with h1 h2
      injection h1 with h1
      subst h2
      subst h1
      exact ⟨kv.2, hkv, hmatch⟩
    · rintro ⟨p, hp, hmatch⟩
      refine ⟨(k, p), hp, ?_⟩
      show (match p.access with
        | PropertyAccess.ro ro => ro.toOption
        | PropertyAccess.rw rw _ => rw.toOption
        | PropertyAccess.wo _ => none).map (fun v =>
          (BasicValue.string k, v)) = _
      rw [hmatch]
      rfl
  refine ⟨hmem_iff, ?_, ?_, ?_⟩
  · intro k p set hp haccess v hv
    obtain ⟨p2, hp2, hm2⟩ := (hmem_iff k v).mp hv
    have : p2 = p := by
      have e1 := (Map.find?_eq_some_iff hs).mpr hp
      have e2 := (Map.find?_eq_some_iff hs).mpr hp2
      rw [e1] at e2
      injection e2 with e2
      exact e2.symm
    subst this
    rw [haccess] at hm2
    cases hm2
  · intro k p e hp haccess v hv
    obtain ⟨p2, hp2, hm2⟩ := (hmem_iff k v).mp hv
    have : p2 = p := by
      have e1 := (Map.find?_eq_some_iff hs).mpr hp
      have e2 := (Map.find?_eq_some_iff hs).mpr hp2
      rw [e1] at e2
      injection e2 with e2
      exact e2.symm
    subst this
    rcases haccess with h | ⟨set, h⟩ <;> rw [h] at hm2 <;> cases hm2
  · rw [get_property_map_eq_filterMap]
    exact gpm_keys_aux i.properties hs

/-- C7 witness: a readable property appears in the map with its read value;
a write-only property never appears. -/
theorem C7_get_property_map_successful_reads_witness :
    Map.Sorted [("P", Property.new_ro "s"
        (Except.ok (Value.basicValue (BasicValue.string "V"))))]
    ∧ (BasicValue.string "P", Value.basicValue (BasicValue.string "V")) ∈
        (Interface.mk Map.empty
          [("P", Property.new_ro "s"
              (Except.ok (Value.basicValue (BasicValue.string "V"))))]
          Map.empty).get_property_map
    ∧ Map.Sorted [("W", Property.new_wo "s" (fun _ => Except.ok ()))]
    ∧ ∀ v, (BasicValue.string "W", v) ∉
        (Interface.mk Map.empty
          [("W", Property.new_wo "s" (fun _ => Except.ok ()))]
          Map.empty).get_property_map :=
  ⟨by simp [Map.Sorted],
    ((C7_get_property_map_successful_reads
      (Interface.mk Map.empty
        [("P", Property.new_ro "s"
            (Except.ok (Value.basicValue (BasicValue.string "V"))))]
        Map.empty) (by simp [Map.Sorted])).1 "P"
        (Value.basicValue (BasicValue.string "V"))).mpr
      ⟨Property.new_ro "s"
          (Except.ok (Value.basicValue (BasicValue.string "V"))),
        by simp, rfl⟩,
    by simp [Map.Sorted],
    fun v =>
      (C7_get_property_map_successful_reads
        (Interface.mk Map.empty
          [("W", Property.new_wo "s" (fun _ => Except.ok ()))]
          Map.empty) (by simp [Map.Sorted])).2.1 "W"
        (Property.new_wo "s" (fun _ => Except.ok ()))
        (fun _ => Except.ok ()) (by simp) rfl v⟩

theorem children_foldl_eq_join (children : List String) :
    children.foldl (fun p name => p ++ " <node name=\"" ++ name ++ "\" />")
      "" =
    String.join (children.map fun name =>
      " <node name=\"" ++ name ++ "\" />") := by
  have general : ∀ (l : List String) (s : String),
      l.foldl (fun p name => p ++ " <node name=\"" ++ name ++ "\" />") s =
        s ++ String.join (l.map fun name =>
          " <node name=\"" ++ name ++ "\" />") := by
    intro l
    induction l with
    | nil => intro s; simp [String.join]
    | cons x xs ih =>
      intro s
      rw [List.foldl_cons, ih, List.map_cons, join_cons]
      simp [String.append_assoc]
  rw [general children "", String.empty_append]

theorem introspect_interface_split (name : String) (iface : Interface) :
    ∃ rest, IntrospectableInterface._introspect_interface " " name iface =
      " <interface name=\"" ++ (name ++ ("\">\\n" ++ rest)) := by
  refine ⟨IntrospectableInterface._to_string_map iface.properties
      (fun k v => IntrospectableInterface._introspect_property (" " ++ " ") k v)
    ++ IntrospectableInterface._to_string_map iface.methods
      (fun k v => IntrospectableInterface._introspect_method (" " ++ " ") k v)
    ++ IntrospectableInterface._to_string_map iface.signals
      (fun k v => IntrospectableInterface._introspect_signal (" " ++ " ") k v)
    ++ (" " ++ "</interface>\\n"), ?_⟩
  simp only [IntrospectableInterface._introspect_interface]
  simp [String.append_assoc]

/-- C8: the introspection document is recomputed from the live registry on
every call — the `Introspect` handler body denotes the renderer applied to
the registry map current at call time, nothing is cached (whether a
dispatched call survives the registry cell's borrow discipline to reach
this body is C1's concern, not this claim's, whose cited source is the
renderer itself); it renders, after the fixed head, one block per
registered interface, exactly once each and in strict name order, each
block opening with the interface's name and containing the join of its
property blocks (in name order, access rendered read/readwrite/write, with
the nested annotations), then its method blocks (in name order, input
arguments tagged `in`, then output arguments tagged `out`, then
annotations), then its signal blocks (arguments tagged `out`, then
annotations); followed by one node-reference element per known child name
in source order. (The source's documented templating defect — member names
rendered in indent position with an empty `name` attribute — is embedded
faithfully and is visible in the per-member equations.) -/
theorem C8_introspection_document (map : Map Interface)
    (children : List String) (msg : Message) (hs : map.Sorted)
    (hps : ∀ kv ∈ map.toList, Map.Sorted kv.2.properties)
    (hms : ∀ kv ∈ map.toList, Map.Sorted kv.2.methods)
    (hss : ∀ kv ∈ map.toList, Map.Sorted kv.2.signals) :
    ∃ xml,
      IntrospectableInterface.introspect map children msg =
        Except.ok [Value.basicValue (BasicValue.string xml)]
      ∧ runHandler (HandlerCode.introspect children) map msg =
          IntrospectableInterface.introspect map children msg
      ∧ xml = IntrospectableInterface.docHeader
          ++ String.join (map.toList.map fun kv =>
            IntrospectableInterface._introspect_interface " " kv.1 kv.2)
          ++ String.join (children.map fun name =>
            " <node name=\"" ++ name ++ "\" />")
          ++ "</node>\\n"
      ∧ List.Pairwise (fun a b => a < b) (map.toList.map Prod.fst)
      ∧ (∀ kv ∈ map.toList, ∃ pre post,
          xml = pre ++ (" <interface name=\"" ++
            (kv.1 ++ ("\">\\n" ++ post))))
      ∧ (∀ kv ∈ map.toList,
          IntrospectableInterface._introspect_interface " " kv.1 kv.2 =
            " " ++ "<interface name=\"" ++ kv.1 ++ "\">\\n"
            ++ String.join (kv.2.properties.toList.map fun pv =>
              IntrospectableInterface._introspect_property "  " pv.1 pv.2)
            ++ String.join (kv.2.methods.toList.map fun mv =>
              IntrospectableInterface._introspect_method "  " mv.1 mv.2)
            ++ String.join (kv.2.signals.toList.map fun sv =>
              IntrospectableInterface._introspect_signal "  " sv.1 sv.2)
            ++ " " ++ "</interface>\\n"
          ∧ List.Pairwise (fun a b => a < b)
              (kv.2.properties.toList.map Prod.fst)
          ∧ List.Pairwise (fun a b => a < b)
              (kv.2.methods.toList.map Prod.fst)
          ∧ List.Pairwise (fun a b => a < b)
              (kv.2.signals.toList.map Prod.fst))
      ∧ (∀ (ind name : String) (prop : Property),
          IntrospectableInterface._introspect_property ind name prop =
            name ++ "<property name=\"\" type=\"" ++ prop.signature
            ++ "\" access=\""
            ++ IntrospectableInterface.accessString prop.access ++ "\">\\n"
            ++ String.join (prop.anns.map
              (IntrospectableInterface._introspect_annotation (ind ++ " ")))
            ++ ind ++ "</property>\\n")
      ∧ (∀ ro, IntrospectableInterface.accessString (PropertyAccess.ro ro) =
          "read")
      ∧ (∀ rw set, IntrospectableInterface.accessString
          (PropertyAccess.rw rw set) = "readwrite")
      ∧ (∀ set, IntrospectableInterface.accessString (PropertyAccess.wo set) =
          "write")
      ∧ (∀ (ind name : String) (method : Method),
          IntrospectableInterface._introspect_method ind name method =
            name ++ "<method name=\"\">\\n"
            ++ String.join (method.in_args.map
              (IntrospectableInterface._introspect_arg (ind ++ " ") "in"))
            ++ String.join (method.out_args.map
              (IntrospectableInterface._introspect_arg (ind ++ " ") "out"))
            ++ String.join (method.anns.map
              (IntrospectableInterface._introspect_annotation (ind ++ " ")))
            ++ ind ++ "</method>\\n")
      ∧ (∀ (ind name : String) (signal : Signal),
          IntrospectableInterface._introspect_signal ind name signal =
            name ++ "<signal name=\"\">\\n"
            ++ String.join (signal.args.map
              (IntrospectableInterface._introspect_arg (ind ++ " ") "out"))
            ++ String.join (signal.anns.map
              (IntrospectableInterface._introspect_annotation (ind ++ " ")))
            ++ ind ++ "</signal>\\n")
      ∧ (∀ (ind dir : String) (arg : Argument),
          IntrospectableInterface._introspect_arg ind dir arg =
            ind ++ "<arg name=\"" ++ arg.name ++ "\" type=\"" ++ arg.signature
            ++ "\" direction=\"" ++ dir ++ "\" />\\n") := by
  refine ⟨IntrospectableInterface.docHeader
      ++ IntrospectableInterface._to_string_map map
        (fun k v => IntrospectableInterface._introspect_interface " " k v)
      ++ children.foldl
        (fun p name => p ++ " <node name=\"" ++ name ++ "\" />") ""
      ++ "</node>\\n",
    rfl, rfl, ?_, ?_, ?_, ?_, ?_, ?_, ?_, ?_, ?_, ?_, ?_⟩
  · rw [to_string_map_eq_join, children_foldl_eq_join]
  · exact Map.keys_pairwise_of_sorted hs
  · intro kv hkv
    obtain ⟨rest, hrest⟩ := introspect_interface_split kv.1 kv.2
    obtain ⟨pre0, post0, hsplit⟩ := join_split
      (fun kv => IntrospectableInterface._introspect_interface " " kv.1 kv.2)
      hkv
    refine ⟨IntrospectableInterface.docHeader ++ pre0,
      rest ++ (post0 ++ (String.join (children.map fun name =>
        " <node name=\"" ++ name ++ "\" />") ++ "</node>\\n")), ?_⟩
    rw [to_string_map_eq_join, children_foldl_eq_join, hsplit]
    simp [hrest, String.append_assoc]
  · intro kv hkv
    refine ⟨?_, Map.keys_pairwise_of_sorted (hps kv hkv),
      Map.keys_pairwise_of_sorted (hms kv hkv),
      Map.keys_pairwise_of_sorted (hss kv hkv)⟩
    simp only [IntrospectableInterface._introspect_interface]
    rw [show (" " ++ " " : String) = "  " from rfl]
    rw [to_string_map_eq_join, to_string_map_eq_join, to_string_map_eq_join]
  · intro ind name prop
    simp only [IntrospectableInterface._introspect_property]
    rw [to_string_list_eq_join]
  · intro ro
    rfl
  · intro rw set
    rfl
  · intro set
    rfl
  · intro ind name method
    simp only [IntrospectableInterface._introspect_method]
    rw [to_string_list_eq_join, to_string_list_eq_join, to_string_list_eq_join]
  · intro ind name signal
    simp only [IntrospectableInterface._introspect_signal]
    rw [to_string_list_eq_join, to_string_list_eq_join]
  · intro ind dir arg
    rfl

/-- C8 witness: the one-interface registry `[("I", Interface.new)]` with
one known child, at which the document decomposition holds. -/
theorem C8_introspection_document_witness :
    Map.Sorted ([("I", Interface.new)] : Map Interface)
    ∧ (∀ kv ∈ Map.toList [("I", Interface.new)],
        Map.Sorted kv.2.properties)
    ∧ (∀ kv ∈ Map.toList [("I", Interface.new)],
        Map.Sorted kv.2.methods)
    ∧ (∀ kv ∈ Map.toList [("I", Interface.new)],
        Map.Sorted kv.2.signals)
    ∧ ∃ xml,
      IntrospectableInterface.introspect [("I", Interface.new)] ["c"]
          (Message.mk MessageKind.other 1 (some [])) =
        Except.ok [Value.basicValue (BasicValue.string xml)]
      ∧ runHandler (HandlerCode.introspect ["c"]) [("I", Interface.new)]
          (Message.mk MessageKind.other 1 (some [])) =
        IntrospectableInterface.introspect [("I", Interface.new)] ["c"]
          (Message.mk MessageKind.other 1 (some []))
      ∧ xml = IntrospectableInterface.docHeader
          ++ String.join
            ((Map.toList ([("I", Interface.new)] : Map Interface)).map fun kv =>
              IntrospectableInterface._introspect_interface " " kv.1 kv.2)
          ++ String.join ((["c"] : List String).map fun name =>
            " <node name=\"" ++ name ++ "\" />")
          ++ "</node>\\n"
      ∧ List.Pairwise (fun a b => a < b)
          ((Map.toList ([("I", Interface.new)] : Map Interface)).map Prod.fst)
      ∧ (∀ kv ∈ Map.toList [("I", Interface.new)], ∃ pre post,
          xml = pre ++ (" <interface name=\"" ++
            (kv.1 ++ ("\">\\n" ++ post))))
      ∧ (∀ kv ∈ Map.toList [("I", Interface.new)],
          IntrospectableInterface._introspect_interface " " kv.1 kv.2 =
            " " ++ "<interface name=\"" ++ kv.1 ++ "\">\\n"
            ++ String.join (kv.2.properties.toList.map fun pv =>
              IntrospectableInterface._introspect_property "  " pv.1 pv.2)
            ++ String.join (kv.2.methods.toList.map fun mv =>
              IntrospectableInterface._introspect_method "  " mv.1 mv.2)
            ++ String.join (kv.2.signals.toList.map fun sv =>
              IntrospectableInterface._introspect_signal "  " sv.1 sv.2)
            ++ " " ++ "</interface>\\n"
          ∧ List.Pairwise (fun a b => a < b)
              (kv.2.properties.toList.map Prod.fst)
          ∧ List.Pairwise (fun a b => a < b)
              (kv.2.methods.toList.map Prod.fst)
          ∧ List.Pairwise (fun a b => a < b)
              (kv.2.signals.toList.map Prod.fst))
      ∧ (∀ (ind name : String) (prop : Property),
          IntrospectableInterface._introspect_property ind name prop =
            name ++ "<property name=\"\" type=\"" ++ prop.signature
            ++ "\" access=\""
            ++ IntrospectableInterface.accessString prop.access ++ "\">\\n"
            ++ String.join (prop.anns.map
              (IntrospectableInterface._introspect_annotation (ind ++ " ")))
            ++ ind ++ "</property>\\n")
      ∧ (∀ ro, IntrospectableInterface.accessString (PropertyAccess.ro ro) =
          "read")
      ∧ (∀ rw set, IntrospectableInterface.accessString
          (PropertyAccess.rw rw set) = "readwrite")
      ∧ (∀ set, IntrospectableInterface.accessString (PropertyAccess.wo set) =
          "write")
      ∧ (∀ (ind name : String) (method : Method),
          IntrospectableInterface._introspect_method ind name method =
            name ++ "<method name=\"\">\\n"
            ++ String.join (method.in_args.map
              (IntrospectableInterface._introspect_arg (ind ++ " ") "in"))
            ++ String.join (method.out_args.map
              (IntrospectableInterface._introspect_arg (ind ++ " ") "out"))
            ++ String.join (method.anns.map
              (IntrospectableInterface._introspect_annotation (ind ++ " ")))
            ++ ind ++ "</method>\\n")
      ∧ (∀ (ind name : String) (signal : Signal),
          IntrospectableInterface._introspect_signal ind name signal =
            name ++ "<signal name=\"\">\\n"
            ++ String.join (signal.args.map
              (IntrospectableInterface._introspect_arg (ind ++ " ") "out"))
            ++ String.join (signal.anns.map
              (IntrospectableInterface._introspect_annotation (ind ++ " ")))
            ++ ind ++ "</signal>\\n")
      ∧ (∀ (ind dir : String) (arg : Argument),
          IntrospectableInterface._introspect_arg ind dir arg =
            ind ++ "<arg name=\"" ++ arg.name ++ "\" type=\"" ++ arg.signature
            ++ "\" direction=\"" ++ dir ++ "\" />\\n") :=
  ⟨by simp [Map.Sorted],
    by simp [Map.Sorted, Map.toList, Interface.new, Map.empty],
    by simp [Map.Sorted, Map.toList, Interface.new, Map.empty],
    by simp [Map.Sorted, Map.toList, Interface.new, Map.empty],
    C8_introspection_document [("I", Interface.new)] ["c"]
      (Message.mk MessageKind.other 1 (some []))
      (by simp [Map.Sorted])
      (by simp [Map.Sorted, Map.toList, Interface.new, Map.empty])
      (by simp [Map.Sorted, Map.toList, Interface.new, Map.empty])
      (by simp [Map.Sorted, Map.toList, Interface.new, Map.empty])⟩

end EzDbus
